import Mathlib

/-
  Verification of the astroinsight astrology/AI core.

  Shallow embedding of the repository's source (astroLogic.js, claude.js,
  ephemeris.js, astrology action code) into Lean 4, followed by theorems
  settling the specification claims.  JavaScript numbers are modelled as
  exact rationals (ℚ); JavaScript exceptions are modelled with `Except`;
  `undefined`/missing-field values are modelled with `Option`.
-/

namespace AstroInsight

/-! ## Numeric helpers shared by the embedded code -/

/-- Normalization of an angle into `[0, 360)`: models the JavaScript idiom
`(x % 360 + 360) % 360` for a finite numeric input. -/
def norm360 (x : ℚ) : ℚ := x - 360 * ⌊x / 360⌋

/-- JavaScript remainder `a % 360` (sign follows the dividend). -/
def jsMod360 (a : ℚ) : ℚ := if 0 ≤ a then norm360 a else -(norm360 (-a))

theorem norm360_eq_fract (x : ℚ) : norm360 x = 360 * Int.fract (x / 360) := by
  unfold norm360 Int.fract
  field_simp

theorem norm360_nonneg (x : ℚ) : 0 ≤ norm360 x := by
  rw [norm360_eq_fract]
  have h := Int.fract_nonneg (x / 360)
  linarith

theorem norm360_lt (x : ℚ) : norm360 x < 360 := by
  rw [norm360_eq_fract]
  have h := Int.fract_lt_one (x / 360)
  linarith

theorem norm360_add_int_mul (x : ℚ) (k : ℤ) : norm360 (x + 360 * k) = norm360 x := by
  unfold norm360
  have h : (x + 360 * k) / 360 = x / 360 + k := by
    field_simp
    ring
  rw [h, Int.floor_add_int]
  push_cast
  ring

theorem norm360_of_lt (x : ℚ) (h0 : 0 ≤ x) (h1 : x < 360) : norm360 x = x := by
  unfold norm360
  have hf : ⌊x / 360⌋ = 0 := by
    rw [Int.floor_eq_zero_iff]
    constructor
    · positivity
    · rw [div_lt_one (by norm_num : (0:ℚ) < 360)]
      simpa using h1
  rw [hf]
  ring

theorem jsMod360_of_nonneg (a : ℚ) (h : 0 ≤ a) : jsMod360 a = norm360 a := by
  unfold jsMod360
  simp [h]

/-- Key floor/emod bridging fact: for a positive integer scale `m`,
`⌊m • y⌋ % m` is the truncated remainder `⌊m • y⌋ - m * ⌊y⌋`. -/
theorem floor_mul_emod (m : ℤ) (hm : 0 < m) (y : ℚ) :
    ⌊(m : ℚ) * y⌋ % m = ⌊(m : ℚ) * y⌋ - m * ⌊y⌋ := by
  have h1 : (m : ℚ) * (⌊y⌋ : ℚ) ≤ (m : ℚ) * y := by
    have := Int.floor_le y
    have hmq : (0 : ℚ) < (m : ℚ) := by exact_mod_cast hm
    nlinarith
  have h2 : (m : ℚ) * y < (m : ℚ) * ((⌊y⌋ : ℚ) + 1) := by
    have := Int.lt_floor_add_one y
    have hmq : (0 : ℚ) < (m : ℚ) := by exact_mod_cast hm
    nlinarith
  have hlo : m * ⌊y⌋ ≤ ⌊(m : ℚ) * y⌋ := by
    apply Int.le_floor.mpr
    push_cast
    exact h1
  have hhi : ⌊(m : ℚ) * y⌋ < m * ⌊y⌋ + m := by
    have hle : ((⌊(m : ℚ) * y⌋ : ℚ)) ≤ (m : ℚ) * y := Int.floor_le _
    have hcast : ((⌊(m : ℚ) * y⌋ : ℚ)) < (m : ℚ) * (⌊y⌋ : ℚ) + (m : ℚ) := by nlinarith
    exact_mod_cast hcast
  have hsplit : ⌊(m : ℚ) * y⌋ = (⌊(m : ℚ) * y⌋ - m * ⌊y⌋) + m * ⌊y⌋ := by ring
  have h0r : 0 ≤ ⌊(m : ℚ) * y⌋ - m * ⌊y⌋ := by omega
  have h1r : ⌊(m : ℚ) * y⌋ - m * ⌊y⌋ < m := by omega
  rw [hsplit, Int.add_mul_emod_self_left, Int.emod_eq_of_lt h0r h1r]
  omega

/-- JavaScript `String(n).padStart(2, '0')`. -/
def padStart2Zero (s : String) : String :=
  if s.length < 2 then String.mk (List.replicate (2 - s.length) '0') ++ s else s

/-! ## astroLogic.js : formatLongitude -/

/-- The `ZODIAC_SIGNS` array from `astroLogic.js`. -/
def ZODIAC_SIGNS : List String :=
  ["Aries", "Taurus", "Gemini", "Cancer", "Leo", "Virgo",
   "Libra", "Scorpio", "Sagittarius", "Capricorn", "Aquarius", "Pisces"]

/-- `formatLongitude` from `astroLogic.js`.  The JavaScript `NaN`/non-number
guard is vacuous for the exact-rational embedding and is omitted; array access
`ZODIAC_SIGNS[signIndex]` is modelled by `getD` with the string rendering of
JavaScript `undefined` as default. -/
def formatLongitude (totalDegrees : ℚ) : String :=
  let correctedDegrees := norm360 totalDegrees
  let signIndex := ⌊correctedDegrees / 30⌋
  let degreesInSign := correctedDegrees - 30 * (signIndex : ℚ)
  let degrees := ⌊degreesInSign⌋
  let minutesDecimal := (degreesInSign - (degrees : ℚ)) * 60
  let minutes := ⌊minutesDecimal⌋
  let seconds := ⌊(minutesDecimal - (minutes : ℚ)) * 60⌋
  toString degrees ++ "° " ++ (ZODIAC_SIGNS.getD signIndex.toNat "undefined") ++ " " ++
    padStart2Zero (toString minutes) ++ "\x27 " ++ padStart2Zero (toString seconds) ++ "\x22"

/-- The specification's description of `formatLongitude`: sign chosen by the
30°-wide zodiac segment containing the normalized longitude; degrees, minutes
and seconds truncated toward zero (not rounded). -/
def specFormatLongitude (L : ℚ) : String :=
  let x := norm360 L
  let sign := ZODIAC_SIGNS.getD (⌊x / 30⌋).toNat "undefined"
  let D := ⌊x⌋ % 30
  let M := ⌊x * 60⌋ % 60
  let S := ⌊x * 3600⌋ % 60
  toString D ++ "° " ++ sign ++ " " ++
    padStart2Zero (toString M) ++ "\x27 " ++ padStart2Zero (toString S) ++ "\x22"

theorem floor_frac_mul (y : ℚ) (n : ℤ) : ⌊(y - (⌊y⌋ : ℚ)) * n⌋ = ⌊y * n⌋ - n * ⌊y⌋ := by
  have h : (y - (⌊y⌋ : ℚ)) * n = y * n - ((n * ⌊y⌋ : ℤ) : ℚ) := by push_cast; ring
  rw [h, Int.floor_sub_int]

/-- `formatLongitude` agrees with the specification's reading: sign from the
30°-segment, and degrees/minutes/seconds each truncated toward zero. -/
theorem formatLongitude_eq_specFormat (L : ℚ) : formatLongitude L = specFormatLongitude L := by
  unfold formatLongitude specFormatLongitude
  simp only
  set x := norm360 L with hx
  set q := ⌊x / 30⌋ with hq
  have h30 : (30 : ℚ) * (x / 30) = x := mul_div_cancel₀ x (by norm_num)
  have hDm := floor_mul_emod 30 (by norm_num) (x / 30)
  push_cast at hDm
  rw [h30] at hDm
  have hD : ⌊x - 30 * (q : ℚ)⌋ = ⌊x⌋ - 30 * q := by
    have hrw : x - 30 * (q : ℚ) = x - ((30 * q : ℤ) : ℚ) := by push_cast; ring
    rw [hrw, Int.floor_sub_int]
  have hDspec : ⌊x - 30 * (q : ℚ)⌋ = ⌊x⌋ % 30 := by rw [hD, hq, hDm]
  -- minutes
  have hM0 := floor_frac_mul (x - 30 * (q : ℚ)) 60
  push_cast at hM0
  have hdx : ⌊(x - 30 * (q : ℚ)) * 60⌋ = ⌊x * 60⌋ - 1800 * q := by
    have hrw : (x - 30 * (q : ℚ)) * 60 = x * 60 - ((1800 * q : ℤ) : ℚ) := by push_cast; ring
    rw [hrw, Int.floor_sub_int]
  have hMm := floor_mul_emod 60 (by norm_num) x
  push_cast at hMm
  have hMcomm : (60 : ℚ) * x = x * 60 := by ring
  rw [hMcomm] at hMm
  have hMspec : ⌊(x - 30 * (q : ℚ) - (⌊x - 30 * (q : ℚ)⌋ : ℚ)) * 60⌋ = ⌊x * 60⌋ % 60 := by
    rw [hM0, hdx, hD, hMm]
    ring
  -- seconds
  have hS0 := floor_frac_mul ((x - 30 * (q : ℚ) - (⌊x - 30 * (q : ℚ)⌋ : ℚ)) * 60) 60
  push_cast at hS0
  have hmd : ⌊(x - 30 * (q : ℚ) - (⌊x - 30 * (q : ℚ)⌋ : ℚ)) * 60 * 60⌋ = ⌊x * 3600⌋ - 3600 * ⌊x⌋ := by
    have hrw : (x - 30 * (q : ℚ) - (⌊x - 30 * (q : ℚ)⌋ : ℚ)) * 60 * 60
        = x * 3600 - ((3600 * (30 * q + (⌊x⌋ - 30 * q)) : ℤ) : ℚ) := by
      rw [hD]; push_cast; ring
    rw [hrw, Int.floor_sub_int]
    ring_nf
  have hSm := floor_mul_emod 60 (by norm_num) (x * 60)
  push_cast at hSm
  have hScomm : (60 : ℚ) * (x * 60) = x * 3600 := by ring
  rw [hScomm] at hSm
  have hSspec : ⌊((x - 30 * (q : ℚ) - (⌊x - 30 * (q : ℚ)⌋ : ℚ)) * 60
      - (⌊(x - 30 * (q : ℚ) - (⌊x - 30 * (q : ℚ)⌋ : ℚ)) * 60⌋ : ℚ)) * 60⌋ = ⌊x * 3600⌋ % 60 := by
    rw [hS0, hmd, hMspec, hMm, hSm]
    ring
  rw [hSspec, hMspec, hDspec]

/-- Claim C5: `formatLongitude` is 360°-periodic; it renders the normalized
longitude as degree-in-sign, zodiac sign by 30°-segment, and minutes/seconds
truncated toward zero; and `formatLongitude(15.5069) = "15° Aries 30' 24""`. -/
theorem formatLongitude_claim :
    (∀ (L : ℚ) (k : ℤ), formatLongitude (L + 360 * k) = formatLongitude L) ∧
    (∀ L : ℚ, formatLongitude L = specFormatLongitude L) ∧
    formatLongitude (155069 / 10000) = "15° Aries 30\x27 24\x22" := by
  refine ⟨?_, formatLongitude_eq_specFormat, ?_⟩
  · intro L k
    unfold formatLongitude
    rw [norm360_add_int_mul]
  · rw [formatLongitude_eq_specFormat]
    unfold specFormatLongitude
    simp only
    have hx : norm360 (155069 / 10000 : ℚ) = 155069 / 10000 :=
      norm360_of_lt _ (by norm_num) (by norm_num)
    rw [hx]
    have h1 : ⌊(155069 / 10000 : ℚ) / 30⌋ = 0 := by
      rw [Int.floor_eq_iff]
      norm_num
    have h2 : ⌊(155069 / 10000 : ℚ)⌋ = 15 := by
      rw [Int.floor_eq_iff]
      norm_num
    have h3 : ⌊(155069 / 10000 : ℚ) * 60⌋ = 930 := by
      rw [Int.floor_eq_iff]
      norm_num
    have h4 : ⌊(155069 / 10000 : ℚ) * 3600⌋ = 55824 := by
      rw [Int.floor_eq_iff]
      norm_num
    rw [h1, h2, h3, h4]
    decide

/-! ## astroLogic.js : getHousePlacement -/

/-- JavaScript `String.prototype.toUpperCase()` restricted to its behavior on
the ASCII identifiers used in this code base (Lean's own `String.toUpper` is
semantically identical on these inputs but is opaque to kernel reduction). -/
def jsToUpperCase (s : String) : String := String.mk (s.data.map Char.toUpper)

/-- The per-house membership test of the quadrant-system loop of
`getHousePlacement` (`astroLogic.js`): is the (already normalized) longitude
inside `[cusp1, cusp2)`, taking the wrap-around branch when `cusp2 < cusp1`. -/
def inHouseInterval (planetLon cusp1 cusp2 : ℚ) : Bool :=
  if cusp1 ≤ cusp2 then
    decide (cusp1 ≤ planetLon ∧ planetLon < cusp2)
  else
    decide ((cusp1 ≤ planetLon ∧ planetLon < 360) ∨ (0 ≤ planetLon ∧ planetLon < cusp2))

/-- `getHousePlacement` from `astroLogic.js`.  `houseCusps`, `ascendantLongitude`
and `houseSystem` may be JavaScript `undefined` (modelled `none`): the cusps
check fires first and returns `null`; with twelve cusps,
`houseSystem.toUpperCase()` on `undefined` throws a `TypeError` (modelled
`.error`).  A missing ascendant in the whole-sign branch makes the computed
house number `NaN`, which every caller treats exactly like `null`
(both are falsy); it is modelled as `none`. -/
def getHousePlacement (planetLongitude : ℚ) (houseCusps : Option (List ℚ))
    (ascendantLongitude : Option ℚ) (houseSystem : Option String) :
    Except String (Option ℤ) :=
  match houseCusps with
  | none => .ok none
  | some cusps =>
    if cusps.length ≠ 12 then .ok none
    else
      let planetLon := norm360 planetLongitude
      match houseSystem with
      | none => .error "TypeError: Cannot read properties of undefined (reading toUpperCase)"
      | some hs =>
        if jsToUpperCase hs = "W" then
          match ascendantLongitude with
          | none => .ok none
          | some asc =>
            let ascSignIndex := ⌊norm360 asc / 30⌋
            let planetSignIndex := ⌊planetLon / 30⌋
            let house := (planetSignIndex - ascSignIndex + 12) % 12
            .ok (some (house + 1))
        else
          .ok ((List.range 12).findSome? fun i =>
            let cusp1 := norm360 (cusps.getD i 0)
            let cusp2 := norm360 (cusps.getD ((i + 1) % 12) 0)
            if inHouseInterval planetLon cusp1 cusp2 then some ((i : ℤ) + 1) else none)

/-- Claim C6: for any twelve-cusp frame, whole-sign placement (`'W'`) returns
`((sign-index-of-longitude − sign-index-of-ascendant) mod 12) + 1`, where a
sign index is `⌊normalized longitude / 30⌋`, ignoring the cusp values; the
spec example (Ascendant 5° Leo = 125°, planet 10° Scorpio = 220°) gives
house 4. -/
theorem wholeSign_house_claim (lon asc : ℚ) (cusps : List ℚ) (hlen : cusps.length = 12) :
    getHousePlacement lon (some cusps) (some asc) (some "W") =
      .ok (some ((⌊norm360 lon / 30⌋ - ⌊norm360 asc / 30⌋) % 12 + 1)) := by
  unfold getHousePlacement
  have hW : jsToUpperCase "W" = "W" := by decide
  simp only [hlen, hW]
  norm_num

/-- Witness for C6 at the spec's own example. -/
theorem wholeSign_house_claim_witness :
    getHousePlacement 220 (some [0, 30, 60, 90, 120, 150, 180, 210, 240, 270, 300, 330])
        (some 125) (some "W") = .ok (some 4) := by
  have h := wholeSign_house_claim 220 125
      [0, 30, 60, 90, 120, 150, 180, 210, 240, 270, 300, 330] (by decide)
  rw [h]
  have h220 : norm360 (220 : ℚ) = 220 := norm360_of_lt _ (by norm_num) (by norm_num)
  have h125 : norm360 (125 : ℚ) = 125 := norm360_of_lt _ (by norm_num) (by norm_num)
  rw [h220, h125]
  norm_num

/-! ## Circular-arc theory for quadrant house placement (claim C3) -/

/-- Forward arc length from `a` to `b` on the `[0,360)` circle. -/
def circDist (a b : ℚ) : ℚ := if b < a then b + 360 - a else b - a

/-- The `i`-th normalized cusp of a frame; indices are taken mod 12, so
`nthCusp cusps 12` is the first cusp again, matching the loop's `(i+1) % 12`. -/
def nthCusp (cusps : List ℚ) (i : ℕ) : ℚ := norm360 (cusps.getD (i % 12) 0)

/-- Arc length of house `i+1` (from cusp `i` forward to cusp `i+1`). -/
def houseGap (cusps : List ℚ) (i : ℕ) : ℚ :=
  circDist (nthCusp cusps i) (nthCusp cusps (i + 1))

/-- A geometrically valid 12-cusp frame: twelve cusps whose normalized values
sit in strictly increasing circular order — every house has positive arc
length and the twelve arcs exactly tile the circle. -/
def ValidFrame (cusps : List ℚ) : Prop :=
  cusps.length = 12 ∧ (∀ i, i < 12 → 0 < houseGap cusps i) ∧
    (∑ j in Finset.range 12, houseGap cusps j) = 360

/-- The specification's reading of the loop test: longitude in
`[cusp_i, cusp_{i+1})` on the circle, with wrap at 360°/0°. -/
def InArc (x a b : ℚ) : Prop :=
  if a ≤ b then a ≤ x ∧ x < b else (a ≤ x ∧ x < 360) ∨ (0 ≤ x ∧ x < b)

theorem inHouseInterval_iff_InArc (x a b : ℚ) :
    inHouseInterval x a b = true ↔ InArc x a b := by
  unfold inHouseInterval InArc
  split_ifs <;> simp

theorem circDist_nonneg (a b : ℚ) (ha1 : a < 360) (hb0 : 0 ≤ b) : 0 ≤ circDist a b := by
  unfold circDist
  split_ifs <;> linarith

theorem circDist_lt_360 (a b : ℚ) (ha0 : 0 ≤ a) (hb1 : b < 360) : circDist a b < 360 := by
  unfold circDist
  split_ifs <;> linarith

theorem InArc_iff_circDist (x a b : ℚ) (hx0 : 0 ≤ x) (hx1 : x < 360)
    (hb0 : 0 ≤ b) (hb1 : b < 360) :
    InArc x a b ↔ circDist a x < circDist a b := by
  unfold InArc circDist
  rcases le_or_lt a b with hab | hba
  · rw [if_pos hab, if_neg (not_lt.mpr hab)]
    rcases lt_or_le x a with hxa | hax
    · rw [if_pos hxa]
      constructor
      · rintro ⟨h1, h2⟩
        linarith
      · intro h
        exfalso
        linarith
    · rw [if_neg (not_lt.mpr hax)]
      constructor
      · rintro ⟨h1, h2⟩
        linarith
      · intro h
        exact ⟨hax, by linarith⟩
  · rw [if_neg (not_le.mpr hba), if_pos hba]
    rcases lt_or_le x a with hxa | hax
    · rw [if_pos hxa]
      constructor
      · rintro (⟨h1, h2⟩ | ⟨h1, h2⟩)
        · linarith
        · linarith
      · intro h
        right
        exact ⟨hx0, by linarith⟩
    · rw [if_neg (not_lt.mpr hax)]
      constructor
      · intro h
        linarith
      · intro h
        left
        exact ⟨hax, hx1⟩

theorem circDist_step_lt (a b x : ℚ) (hb1 : b < 360) (hx0 : 0 ≤ x)
    (h : circDist a x < circDist a b) :
    circDist b x = circDist a x - circDist a b + 360 := by
  simp only [circDist] at h ⊢
  split_ifs at h ⊢ <;> linarith

theorem circDist_step_ge (a b x : ℚ) (hb0 : 0 ≤ b) (hx1 : x < 360)
    (h : circDist a b ≤ circDist a x) :
    circDist b x = circDist a x - circDist a b := by
  simp only [circDist] at h ⊢
  split_ifs at h ⊢ <;> linarith

theorem partial_gap_sum_nonneg (cusps : List ℚ) (hv : ValidFrame cusps) (i : ℕ) :
    0 ≤ ∑ j in Finset.range i, houseGap cusps j := by
  apply Finset.sum_nonneg
  intro j hj
  by_cases hj12 : j < 12
  · exact le_of_lt (hv.2.1 j hj12)
  · -- indices ≥ 12 never occur in the proofs below, but cover them anyway
    unfold houseGap
    exact circDist_nonneg _ _ (norm360_lt _) (norm360_nonneg _)

theorem partial_gap_sum_le (cusps : List ℚ) (hv : ValidFrame cusps) (i : ℕ) (hi : i ≤ 12) :
    ∑ j in Finset.range i, houseGap cusps j ≤ 360 := by
  have hsplit := Finset.sum_range_add_sum_Ico (houseGap cusps) hi
  have hrest : 0 ≤ ∑ j in Finset.Ico i 12, houseGap cusps j := by
    apply Finset.sum_nonneg
    intro j hj
    exact le_of_lt (hv.2.1 j (Finset.mem_Ico.mp hj).2)
  have h360 := hv.2.2
  linarith [hsplit.symm ▸ h360]

theorem partial_gap_sum_mono (cusps : List ℚ) (hv : ValidFrame cusps)
    (i j : ℕ) (hij : i ≤ j) :
    ∑ k in Finset.range i, houseGap cusps k ≤ ∑ k in Finset.range j, houseGap cusps k := by
  apply Finset.sum_le_sum_of_subset_of_nonneg (Finset.range_subset.mpr hij)
  intro k _ _
  by_cases hk : k < 12
  · exact le_of_lt (hv.2.1 k hk)
  · unfold houseGap
    exact circDist_nonneg _ _ (norm360_lt _) (norm360_nonneg _)

/-- Walking the cusps: the arc distance from cusp `i` to the longitude equals
the distance from cusp 0 shifted back by the accumulated house gaps,
wrapped into `[0,360)`. -/
theorem cusp_walk (cusps : List ℚ) (hv : ValidFrame cusps) (z : ℚ)
    (hz0 : 0 ≤ z) (hz1 : z < 360) :
    ∀ i, i ≤ 12 →
      circDist (nthCusp cusps i) z =
        (if circDist (nthCusp cusps 0) z < ∑ j in Finset.range i, houseGap cusps j
         then circDist (nthCusp cusps 0) z - (∑ j in Finset.range i, houseGap cusps j) + 360
         else circDist (nthCusp cusps 0) z - ∑ j in Finset.range i, houseGap cusps j) := by
  have hy0 : 0 ≤ circDist (nthCusp cusps 0) z := circDist_nonneg _ _ (norm360_lt _) hz0
  intro i
  induction i with
  | zero =>
    intro _
    rw [if_neg]
    · simp
    · simp
      exact hy0
  | succ n ih =>
    intro hn
    have hn' : n ≤ 12 := by omega
    have hn12 : n < 12 := by omega
    have hA := ih hn'
    have hgap : circDist (nthCusp cusps n) (nthCusp cusps (n + 1)) = houseGap cusps n := rfl
    have hgap_pos : 0 < houseGap cusps n := hv.2.1 n hn12
    have hple : ∑ j in Finset.range (n + 1), houseGap cusps j ≤ 360 :=
      partial_gap_sum_le cusps hv (n + 1) hn
    have hp0 : 0 ≤ ∑ j in Finset.range n, houseGap cusps j := partial_gap_sum_nonneg cusps hv n
    have hsucc : ∑ j in Finset.range (n + 1), houseGap cusps j
        = (∑ j in Finset.range n, houseGap cusps j) + houseGap cusps n :=
      Finset.sum_range_succ _ n
    set y := circDist (nthCusp cusps 0) z with hy
    set p := ∑ j in Finset.range n, houseGap cusps j with hp
    rcases lt_or_le (circDist (nthCusp cusps n) z) (circDist (nthCusp cusps n) (nthCusp cusps (n + 1))) with hlt | hge
    · have hstep := circDist_step_lt (nthCusp cusps n) (nthCusp cusps (n + 1)) z
        (norm360_lt _) hz0 hlt
      rw [hgap] at hstep
      rw [hgap] at hlt
      rw [hA] at hstep hlt
      split_ifs at hstep hlt with hcase
      · -- y < p : house gap cannot reach back past a full turn
        exfalso
        have hy1 : y < 360 := circDist_lt_360 _ _ (norm360_nonneg _) hz1
        rw [hsucc] at hple
        linarith
      · rw [hstep, hsucc, if_pos (by linarith)]
        ring
    · have hstep := circDist_step_ge (nthCusp cusps n) (nthCusp cusps (n + 1)) z
        (norm360_nonneg _) hz1 hge
      rw [hgap] at hstep
      rw [hgap] at hge
      rw [hA] at hstep hge
      split_ifs at hstep hge with hcase
      · rw [hstep, hsucc, if_pos (by linarith)]
        ring
      · rw [hstep, hsucc, if_neg (by push_neg; linarith)]
        ring

/-- Membership in house `i+1` is exactly: the arc position of the longitude
(measured from cusp 0) lies between the accumulated gaps `p i` and `p (i+1)`. -/
theorem mem_house_iff (cusps : List ℚ) (hv : ValidFrame cusps) (z : ℚ)
    (hz0 : 0 ≤ z) (hz1 : z < 360) (i : ℕ) (hi : i < 12) :
    InArc z (nthCusp cusps i) (nthCusp cusps (i + 1)) ↔
      ((∑ j in Finset.range i, houseGap cusps j) ≤ circDist (nthCusp cusps 0) z ∧
        circDist (nthCusp cusps 0) z < ∑ j in Finset.range (i + 1), houseGap cusps j) := by
  rw [InArc_iff_circDist z (nthCusp cusps i) (nthCusp cusps (i + 1)) hz0 hz1
    (norm360_nonneg _) (norm360_lt _)]
  have hgap : circDist (nthCusp cusps i) (nthCusp cusps (i + 1)) = houseGap cusps i := rfl
  rw [hgap, cusp_walk cusps hv z hz0 hz1 i (le_of_lt hi), Finset.sum_range_succ]
  have hy0 : 0 ≤ circDist (nthCusp cusps 0) z := circDist_nonneg _ _ (norm360_lt _) hz0
  have hple : ∑ j in Finset.range (i + 1), houseGap cusps j ≤ 360 :=
    partial_gap_sum_le cusps hv (i + 1) hi
  rw [Finset.sum_range_succ] at hple
  split_ifs with hcase
  · constructor
    · intro h
      exfalso
      linarith
    · rintro ⟨h1, h2⟩
      linarith
  · constructor
    · intro h
      exact ⟨by linarith, by linarith⟩
    · rintro ⟨h1, h2⟩
      linarith

/-- Exactly one house interval contains the (normalized) longitude. -/
theorem existsUnique_house (cusps : List ℚ) (hv : ValidFrame cusps) (z : ℚ)
    (hz0 : 0 ≤ z) (hz1 : z < 360) :
    ∃! i : ℕ, i < 12 ∧ InArc z (nthCusp cusps i) (nthCusp cusps (i + 1)) := by
  set y := circDist (nthCusp cusps 0) z with hy
  have hy0 : 0 ≤ y := circDist_nonneg _ _ (norm360_lt _) hz0
  have hy1 : y < 360 := circDist_lt_360 _ _ (norm360_nonneg _) hz1
  have hex : ∃ i, i < 12 ∧ (∑ j in Finset.range i, houseGap cusps j) ≤ y ∧
      y < ∑ j in Finset.range (i + 1), houseGap cusps j := by
    by_contra hno
    push_neg at hno
    have hall : ∀ i, i ≤ 12 → (∑ j in Finset.range i, houseGap cusps j) ≤ y := by
      intro i
      induction i with
      | zero =>
        intro _
        simpa using hy0
      | succ n ih =>
        intro hn
        exact hno n (by omega) (ih (by omega))
    have h12 := hall 12 le_rfl
    rw [hv.2.2] at h12
    linarith
  obtain ⟨i0, hi0, hlo, hhi⟩ := hex
  refine ⟨i0, ⟨hi0, (mem_house_iff cusps hv z hz0 hz1 i0 hi0).mpr ⟨hlo, hhi⟩⟩, ?_⟩
  rintro j ⟨hj, hmem⟩
  have hj' := (mem_house_iff cusps hv z hz0 hz1 j hj).mp hmem
  by_contra hne
  rcases Nat.lt_or_ge j i0 with hlt | hge
  · have := partial_gap_sum_mono cusps hv (j + 1) i0 (by omega)
    linarith [hj'.2, hlo]
  · have hgt : i0 < j := by omega
    have := partial_gap_sum_mono cusps hv (i0 + 1) j (by omega)
    linarith [hj'.1, hhi]

theorem findSome_eq_of_unique {α : Type} (f : ℕ → Option α) (i0 : ℕ) (v : α) :
    ∀ l : List ℕ, i0 ∈ l → f i0 = some v → (∀ j ∈ l, j ≠ i0 → f j = none) →
      l.findSome? f = some v := by
  intro l
  induction l with
  | nil =>
    intro h
    cases h
  | cons a t ih =>
    intro hmem hfv hothers
    by_cases ha : a = i0
    · subst ha
      simp [List.findSome?_cons, hfv]
    · have hna : f a = none := hothers a (List.mem_cons_self a t) ha
      have hmem' : i0 ∈ t := by
        rcases List.mem_cons.mp hmem with h | h
        · exact absurd h.symm ha
        · exact h
      rw [List.findSome?_cons, hna]
      exact ih hmem' hfv (fun j hj => hothers j (List.mem_cons_of_mem _ hj))

/-- Claim C3: for every valid 12-cusp frame and every longitude, quadrant-style
house placement (any non-`'W'` system id) is total — it returns exactly one
house number in 1–12, never the `null` fallback — the longitude is placed in
house `i+1` iff it lies in `[cusp_i, cusp_{i+1})` on the circle (wrap at
360°/0° handled), and a longitude equal to a (normalized) cusp falls in the
house that this cusp starts (inclusive lower bound). -/
theorem quadrant_house_claim (x : ℚ) (cusps : List ℚ) (asc : Option ℚ) (hs : String)
    (hv : ValidFrame cusps) (hW : jsToUpperCase hs ≠ "W") :
    ∃ h : ℤ, getHousePlacement x (some cusps) asc (some hs) = .ok (some h) ∧
      1 ≤ h ∧ h ≤ 12 ∧
      (∀ i : ℕ, i < 12 →
        (h = (i : ℤ) + 1 ↔ InArc (norm360 x) (nthCusp cusps i) (nthCusp cusps (i + 1)))) ∧
      (∀ i : ℕ, i < 12 → norm360 x = nthCusp cusps i → h = (i : ℤ) + 1) := by
  obtain ⟨i0, ⟨hi0, hmem⟩, huniq⟩ :=
    existsUnique_house cusps hv (norm360 x) (norm360_nonneg x) (norm360_lt x)
  have hiff : ∀ i : ℕ, i < 12 →
      (((i0 : ℤ) + 1 = (i : ℤ) + 1) ↔ InArc (norm360 x) (nthCusp cusps i) (nthCusp cusps (i + 1))) := by
    intro i hi
    constructor
    · intro heq
      have : i0 = i := by omega
      exact this ▸ hmem
    · intro hin
      have : i = i0 := huniq i ⟨hi, hin⟩
      omega
  refine ⟨(i0 : ℤ) + 1, ?_, by omega, by omega, hiff, ?_⟩
  · simp only [getHousePlacement]
    rw [hv.1]
    rw [if_neg (by norm_num)]
    rw [if_neg hW]
    congr 1
    apply findSome_eq_of_unique _ i0 ((i0 : ℤ) + 1) _ (List.mem_range.mpr hi0)
    · have hc1 : norm360 (cusps.getD i0 0) = nthCusp cusps i0 := by
        unfold nthCusp
        rw [Nat.mod_eq_of_lt hi0]
      have hc2 : norm360 (cusps.getD ((i0 + 1) % 12) 0) = nthCusp cusps (i0 + 1) := rfl
      show (if inHouseInterval (norm360 x) (norm360 (cusps.getD i0 0))
          (norm360 (cusps.getD ((i0 + 1) % 12) 0)) = true
        then some ((i0 : ℤ) + 1) else none) = some ((i0 : ℤ) + 1)
      rw [hc1, hc2, if_pos ((inHouseInterval_iff_InArc _ _ _).mpr hmem)]
    · intro j hj hne
      have hj12 : j < 12 := List.mem_range.mp hj
      have hc1 : norm360 (cusps.getD j 0) = nthCusp cusps j := by
        unfold nthCusp
        rw [Nat.mod_eq_of_lt hj12]
      have hc2 : norm360 (cusps.getD ((j + 1) % 12) 0) = nthCusp cusps (j + 1) := rfl
      show (if inHouseInterval (norm360 x) (norm360 (cusps.getD j 0))
          (norm360 (cusps.getD ((j + 1) % 12) 0)) = true
        then some ((j : ℤ) + 1) else none) = none
      rw [hc1, hc2, if_neg]
      intro hin
      exact hne (huniq j ⟨hj12, (inHouseInterval_iff_InArc _ _ _).mp hin⟩)
  · intro i hi hcusp
    apply (hiff i hi).mpr
    apply (InArc_iff_circDist (norm360 x) (nthCusp cusps i) (nthCusp cusps (i + 1))
      (norm360_nonneg x) (norm360_lt x) (norm360_nonneg _) (norm360_lt _)).mpr
    rw [hcusp]
    have hself : circDist (nthCusp cusps i) (nthCusp cusps i) = 0 := by
      unfold circDist
      rw [if_neg (lt_irrefl _)]
      ring
    rw [hself]
    exact hv.2.1 i hi

/-- The equal-house frame used as a concrete valid frame in witnesses. -/
def equalCusps : List ℚ := [0, 30, 60, 90, 120, 150, 180, 210, 240, 270, 300, 330]

theorem equalCusps_gap (i : ℕ) (hi : i < 12) : houseGap equalCusps i = 30 := by
  interval_cases i <;>
    norm_num [houseGap, circDist, nthCusp, equalCusps, norm360]

theorem equalCusps_valid : ValidFrame equalCusps := by
  refine ⟨rfl, ?_, ?_⟩
  · intro i hi
    rw [equalCusps_gap i hi]
    norm_num
  · rw [Finset.sum_congr rfl (fun j hj => equalCusps_gap j (Finset.mem_range.mp hj))]
    rw [Finset.sum_const, Finset.card_range]
    norm_num

/-- Witness for C3: a planet at 45° with the equal-house frame and system
`'P'` lands in house 2 (`[30°, 60°)`), with the placement in 1–12. -/
theorem quadrant_house_claim_witness :
    getHousePlacement 45 (some equalCusps) none (some "P") = .ok (some 2) := by
  obtain ⟨h, heval, h1, h12, hiff, _⟩ :=
    quadrant_house_claim 45 equalCusps none "P" equalCusps_valid (by decide)
  have hz : norm360 (45 : ℚ) = 45 := norm360_of_lt _ (by norm_num) (by norm_num)
  have hin : InArc (norm360 (45 : ℚ)) (nthCusp equalCusps 1) (nthCusp equalCusps 2) := by
    rw [hz]
    norm_num [InArc, nthCusp, equalCusps, norm360]
  have hh : h = 2 := by
    have := (hiff 1 (by norm_num)).mpr hin
    omega
  rw [hh] at heval
  exact heval

/-! ## astroLogic.js : XML serializers (claim C9)

The serializers build one output string by appending chunks (`xml += ...` in
the source); the embedding keeps the list of appended chunks, whose
concatenation is the JavaScript string.  A JavaScript `TypeError` thrown by a
property access on `undefined` (e.g. `.toFixed` on a missing field) is
modelled as `Except.error`, which discards the partial output exactly as a
thrown exception does. -/

/-- JavaScript falsiness of an optional string (`undefined` and `""` are falsy). -/
def jsTruthyStr : Option String → Bool
  | none => false
  | some s => decide (s ≠ "")

/-- JavaScript falsiness of an optional number (`undefined` and `0` are falsy). -/
def jsTruthyNum : Option ℚ → Bool
  | none => false
  | some q => decide (q ≠ 0)

/-- JavaScript falsiness of the house-placement value (`null`/`NaN` are `none`). -/
def jsTruthyIntOpt : Option ℤ → Bool
  | none => false
  | some n => decide (n ≠ 0)

/-- JavaScript `Number.prototype.toFixed(d)`: fixed-point rendering with `d`
decimals, rounding to nearest.  (The tie behavior of binary doubles is
immaterial to every claim; nearest-with-half-up is used.) -/
def toFixed (d : Nat) (q : ℚ) : String :=
  let n : ℤ := round (q * (10 : ℚ) ^ d)
  let sign := if n < 0 then "-" else ""
  let a := n.natAbs
  if d = 0 then sign ++ toString a
  else
    let ip := a / 10 ^ d
    let fp := a % 10 ^ d
    let fs := toString fp
    sign ++ toString ip ++ "." ++ String.mk (List.replicate (d - fs.length) '0') ++ fs

/-- A per-body record as consumed by the serializers; every field can be
missing in the input object. -/
structure BodyData where
  longitude : Option ℚ
  latitude : Option ℚ
  speedLon : Option ℚ
  isRetrograde : Option Bool

structure HousesData where
  cusps : Option (List ℚ)
  ascendant : Option ℚ
  mc : Option ℚ

structure LocationData where
  latitude : Option ℚ
  longitude : Option ℚ
  timezone : Option String

structure AyanamsaData where
  name : Option String
  value : Option ℚ

/-- The `chartData` object consumed by `formatBirthChartDataAsXML`. -/
structure ChartData where
  name : Option String
  birthDate : Option String
  birthTime : Option String
  location : Option LocationData
  gender : Option String
  houseSystem : Option String
  ayanamsa : Option AyanamsaData
  planets : Option (List (String × BodyData))
  houses : Option HousesData

/-- The `transitData` object consumed by `formatTransitDataAsXML`. -/
structure TransitData where
  date : Option String
  planets : Option (List (String × BodyData))

def chartErrorMarker : String := "<error>Insufficient chart data provided</error>"
def transitErrorMarker : String := "<error>Insufficient transit data provided</error>"

/-- The `birth_location_details` sub-block of the personal section
(the `chartData.location && chartData.location.timezone` guard). -/
def locationChunks : Option LocationData → List String
  | none => []
  | some loc =>
    if jsTruthyStr loc.timezone then
      ["    <birth_location_details>\n"]
      ++ (if jsTruthyNum loc.latitude then
            ["      <latitude>" ++ toFixed 4 (loc.latitude.getD 0) ++ "</latitude>\n"] else [])
      ++ (if jsTruthyNum loc.longitude then
            ["      <longitude>" ++ toFixed 4 (loc.longitude.getD 0) ++ "</longitude>\n"] else [])
      ++ ["      <timezone>" ++ loc.timezone.getD "" ++ "</timezone>\n",
          "    </birth_location_details>\n"]
    else []

/-- The `personal_information` block of `formatBirthChartDataAsXML`. -/
def personalChunks (cd : ChartData) : List String :=
  ["  <personal_information>\n"]
  ++ (if jsTruthyStr cd.name then
        ["    <name>" ++ cd.name.getD "" ++ "</name>\n"] else [])
  ++ (if jsTruthyStr cd.birthDate then
        ["    <birth_date>" ++ cd.birthDate.getD "" ++ "</birth_date>\n"] else [])
  ++ (if jsTruthyStr cd.birthTime then
        ["    <birth_time>" ++ cd.birthTime.getD "" ++ "</birth_time>\n"] else [])
  ++ locationChunks cd.location
  ++ (if jsTruthyStr cd.gender then
        ["    <gender>" ++ cd.gender.getD "" ++ "</gender>\n"] else [])
  ++ ["  </personal_information>\n"]

/-- The `astrological_system` block; throws when `ayanamsa` is present with a
truthy name but no `value` (`.toFixed` on `undefined`). -/
def astroSystemChunks (cd : ChartData) : Except String (List String) :=
  let houseSystemStr := if jsTruthyStr cd.houseSystem then cd.houseSystem.getD "" else "Placidus"
  let header := ["  <astrological_system>\n",
    "    <house_system>" ++ houseSystemStr ++ "</house_system>\n"]
  match cd.ayanamsa with
  | some ay =>
    if jsTruthyStr ay.name then
      match ay.value with
      | some v => .ok (header ++
          ["    <calculation_type>Sidereal</calculation_type>\n",
           "    <ayanamsa_name>" ++ ay.name.getD "" ++ "</ayanamsa_name>\n",
           "    <ayanamsa_value>" ++ toFixed 6 v ++ "</ayanamsa_value>\n",
           "  </astrological_system>\n"])
      | none => .error "TypeError: Cannot read properties of undefined (reading toFixed)"
    else .ok (header ++
        ["    <calculation_type>Tropical</calculation_type>\n", "  </astrological_system>\n"])
  | none => .ok (header ++
      ["    <calculation_type>Tropical</calculation_type>\n", "  </astrological_system>\n"])

/-- The per-planet loop of `formatBirthChartDataAsXML`; throws on a body with
no `longitude` (`.toFixed` on `undefined`), or when `getHousePlacement`
reaches `houseSystem.toUpperCase()` with `houseSystem` missing. -/
def planetChunks (houses : HousesData) (houseSystem : Option String) :
    List (String × BodyData) → Except String (List String)
  | [] => .ok []
  | (name, data) :: rest =>
    match data.longitude with
    | none => .error "TypeError: Cannot read properties of undefined (reading toFixed)"
    | some lon =>
      match getHousePlacement lon houses.cusps houses.ascendant houseSystem with
      | .error e => .error e
      | .ok hp =>
        let chunk :=
          ["    <planet name=\x22" ++ name ++ "\x22>\n",
           "      <longitude_decimal>" ++ toFixed 6 lon ++ "</longitude_decimal>\n",
           "      <longitude_formatted>" ++ formatLongitude lon ++ "</longitude_formatted>\n"]
          ++ (match data.latitude with
              | some l => ["      <latitude_decimal>" ++ toFixed 6 l ++ "</latitude_decimal>\n"]
              | none => [])
          ++ (match data.speedLon with
              | some sl =>
                ["      <speed_longitude_per_day>" ++ toFixed 6 sl ++ "</speed_longitude_per_day>\n"]
              | none => [])
          ++ (match data.isRetrograde with
              | some b =>
                ["      <is_retrograde>" ++ (if b then "true" else "false") ++ "</is_retrograde>\n"]
              | none => [])
          ++ (if jsTruthyIntOpt hp then
                ["      <house_placement>" ++ toString (hp.getD 0) ++ "</house_placement>\n"] else [])
          ++ ["    </planet>\n"]
        match planetChunks houses houseSystem rest with
        | .error e => .error e
        | .ok out => .ok (chunk ++ out)

/-- The `house_cusps` block; throws when `ascendant`/`mc` are missing
(`.toFixed` on `undefined`) or `cusps` is missing (`.forEach` on `undefined`). -/
def houseCuspsChunks (houses : HousesData) : Except String (List String) :=
  match houses.ascendant, houses.mc with
  | some asc, some mc =>
    match houses.cusps with
    | some cs =>
      .ok (["  <house_cusps>\n",
            "    <ascendant_longitude_decimal>" ++ toFixed 6 asc ++ "</ascendant_longitude_decimal>\n",
            "    <ascendant_longitude_formatted>" ++ formatLongitude asc ++ "</ascendant_longitude_formatted>\n",
            "    <midheaven_longitude_decimal>" ++ toFixed 6 mc ++ "</midheaven_longitude_decimal>\n",
            "    <midheaven_longitude_formatted>" ++ formatLongitude mc ++ "</midheaven_longitude_formatted>\n"]
        ++ (cs.enum.map (fun p =>
              ["    <house_cusp number=\x22" ++ toString (p.1 + 1) ++ "\x22>\n",
               "      <longitude_decimal>" ++ toFixed 6 p.2 ++ "</longitude_decimal>\n",
               "      <longitude_formatted>" ++ formatLongitude p.2 ++ "</longitude_formatted>\n",
               "    </house_cusp>\n"])).flatten
        ++ ["  </house_cusps>\n"])
    | none => .error "TypeError: Cannot read properties of undefined (reading forEach)"
  | _, _ => .error "TypeError: Cannot read properties of undefined (reading toFixed)"

/-- `formatBirthChartDataAsXML` from `astroLogic.js`: guard on missing
`planets`/`houses` returning the inline error marker, otherwise the
structured document (as its chunk list). -/
def formatBirthChartDataAsXML (cd : ChartData) : Except String (List String) :=
  match cd.planets, cd.houses with
  | some planets, some houses =>
    (astroSystemChunks cd).bind fun sys =>
      (planetChunks houses cd.houseSystem planets).bind fun ps =>
        (houseCuspsChunks houses).bind fun hc =>
          .ok (["<birth_chart_details>\n"] ++ personalChunks cd ++ sys
            ++ ["  <planetary_positions>\n"] ++ ps ++ ["  </planetary_positions>\n"]
            ++ hc ++ ["</birth_chart_details>"])
  | _, _ => .ok [chartErrorMarker]

/-- The per-planet loop of `formatTransitDataAsXML`. -/
def transitPlanetChunks : List (String × BodyData) → Except String (List String)
  | [] => .ok []
  | (name, data) :: rest =>
    match data.longitude with
    | none => .error "TypeError: Cannot read properties of undefined (reading toFixed)"
    | some lon =>
      let chunk :=
        ["    <planet name=\x22" ++ name ++ "\x22>\n",
         "      <longitude_decimal>" ++ toFixed 6 lon ++ "</longitude_decimal>\n",
         "      <longitude_formatted>" ++ formatLongitude lon ++ "</longitude_formatted>\n"]
        ++ (match data.speedLon with
            | some sl =>
              ["      <speed_longitude_per_day>" ++ toFixed 6 sl ++ "</speed_longitude_per_day>\n"]
            | none => [])
        ++ (match data.isRetrograde with
            | some b =>
              ["      <is_retrograde>" ++ (if b then "true" else "false") ++ "</is_retrograde>\n"]
            | none => [])
        ++ ["    </planet>\n"]
      match transitPlanetChunks rest with
      | .error e => .error e
      | .ok out => .ok (chunk ++ out)

/-- `formatTransitDataAsXML` from `astroLogic.js`. -/
def formatTransitDataAsXML (td : TransitData) : Except String (List String) :=
  if jsTruthyStr td.date then
    match td.planets with
    | some planets =>
      (transitPlanetChunks planets).bind fun ps =>
        .ok (["<transit_details>\n",
              "  <transit_date>" ++ td.date.getD "" ++ "</transit_date>\n",
              "  <transiting_planets>\n"] ++ ps
          ++ ["  </transiting_planets>\n", "</transit_details>"])
    | none => .ok [transitErrorMarker]
  else .ok [transitErrorMarker]

/-- Any string beginning with a space (every indented output line does) is not
one of the inline error markers (they begin with `<`). -/
theorem ne_marker_of_head_space (s : String) (h : ∃ l, s.data = ' ' :: l) :
    s ≠ chartErrorMarker ∧ s ≠ transitErrorMarker := by
  obtain ⟨l, hl⟩ := h
  have hh : s.data.head? = some ' ' := by rw [hl]; rfl
  refine ⟨?_, ?_⟩ <;> intro he <;> rw [he] at hh
  · exact absurd hh (by decide)
  · exact absurd hh (by decide)

theorem mem_ite_nil {b : Bool} {l : List String} {c : String}
    (h : c ∈ if b = true then l else []) : c ∈ l := by
  cases b
  · simp at h
  · simpa using h

theorem locationChunks_safe (o : Option LocationData) :
    ∀ c ∈ locationChunks o, c ≠ chartErrorMarker := by
  intro c hc
  match o with
  | none => simp [locationChunks] at hc
  | some loc =>
    unfold locationChunks at hc
    have hc' := mem_ite_nil hc
    simp only [List.mem_append, List.mem_singleton, List.mem_cons, List.not_mem_nil,
      or_false] at hc'
    rcases hc' with ((h | h) | h) | h | h
    · subst h
      exact (ne_marker_of_head_space _ ⟨_, rfl⟩).1
    · have h2 := mem_ite_nil h
      rw [List.mem_singleton] at h2
      subst h2
      exact (ne_marker_of_head_space _ ⟨_, rfl⟩).1
    · have h2 := mem_ite_nil h
      rw [List.mem_singleton] at h2
      subst h2
      exact (ne_marker_of_head_space _ ⟨_, rfl⟩).1
    · subst h
      exact (ne_marker_of_head_space _ ⟨_, rfl⟩).1
    · subst h
      exact (ne_marker_of_head_space _ ⟨_, rfl⟩).1

theorem personalChunks_safe (cd : ChartData) :
    ∀ c ∈ personalChunks cd, c ≠ chartErrorMarker := by
  intro c hc
  unfold personalChunks at hc
  simp only [List.mem_append, List.mem_singleton] at hc
  rcases hc with (((((h | h) | h) | h) | h) | h) | h
  · subst h
    exact (ne_marker_of_head_space _ ⟨_, rfl⟩).1
  · have h' := mem_ite_nil h
    rw [List.mem_singleton] at h'
    subst h'
    exact (ne_marker_of_head_space _ ⟨_, rfl⟩).1
  · have h' := mem_ite_nil h
    rw [List.mem_singleton] at h'
    subst h'
    exact (ne_marker_of_head_space _ ⟨_, rfl⟩).1
  · have h' := mem_ite_nil h
    rw [List.mem_singleton] at h'
    subst h'
    exact (ne_marker_of_head_space _ ⟨_, rfl⟩).1
  · exact locationChunks_safe cd.location c h
  · have h' := mem_ite_nil h
    rw [List.mem_singleton] at h'
    subst h'
    exact (ne_marker_of_head_space _ ⟨_, rfl⟩).1
  · subst h
    exact (ne_marker_of_head_space _ ⟨_, rfl⟩).1

theorem astroSystemChunks_safe (cd : ChartData) (out : List String)
    (hout : astroSystemChunks cd = .ok out) : ∀ c ∈ out, c ≠ chartErrorMarker := by
  intro c hc
  unfold astroSystemChunks at hout
  match hay : cd.ayanamsa with
  | none =>
    rw [hay] at hout
    dsimp only at hout
    cases hout
    simp only [List.mem_append, List.mem_singleton, List.mem_cons, List.not_mem_nil,
      or_false] at hc
    rcases hc with (h | h) | h | h <;> subst h <;>
      exact (ne_marker_of_head_space _ ⟨_, rfl⟩).1
  | some ay =>
    rw [hay] at hout
    dsimp only at hout
    by_cases hn : jsTruthyStr ay.name = true
    · rw [if_pos hn] at hout
      match hv : ay.value with
      | none =>
        rw [hv] at hout
        cases hout
      | some v =>
        rw [hv] at hout
        cases hout
        simp only [List.mem_append, List.mem_singleton, List.mem_cons, List.not_mem_nil,
          or_false] at hc
        rcases hc with (h | h) | h | h | h | h <;> subst h <;>
          exact (ne_marker_of_head_space _ ⟨_, rfl⟩).1
    · rw [if_neg hn] at hout
      cases hout
      simp only [List.mem_append, List.mem_singleton, List.mem_cons, List.not_mem_nil,
        or_false] at hc
      rcases hc with (h | h) | h | h <;> subst h <;>
        exact (ne_marker_of_head_space _ ⟨_, rfl⟩).1

/-- Every chunk of the list begins with a space character. -/
def SpacedList (l : List String) : Prop := ∀ c ∈ l, ∃ t, c.data = ' ' :: t

theorem spacedList_nil : SpacedList [] := by
  intro c hc
  simp at hc

theorem spacedList_cons {a : String} {l : List String} (ha : ∃ t, a.data = ' ' :: t)
    (hl : SpacedList l) : SpacedList (a :: l) := by
  intro c hc
  rcases List.mem_cons.mp hc with h | h
  · exact h ▸ ha
  · exact hl c h

theorem spacedList_append {l1 l2 : List String} (h1 : SpacedList l1) (h2 : SpacedList l2) :
    SpacedList (l1 ++ l2) := by
  intro c hc
  rcases List.mem_append.mp hc with h | h
  · exact h1 c h
  · exact h2 c h

theorem spacedList_ite {b : Bool} {l : List String} (h : SpacedList l) :
    SpacedList (if b = true then l else []) := by
  cases b
  · simp
    exact spacedList_nil
  · simpa using h

theorem spacedList_matchOpt {β : Type} {o : Option β} {f : β → List String}
    (h : ∀ x, SpacedList (f x)) :
    SpacedList (match o with | some x => f x | none => []) := by
  cases o
  · exact spacedList_nil
  · exact h _

theorem spacedList_singleton {a : String} (ha : ∃ t, a.data = ' ' :: t) :
    SpacedList [a] := spacedList_cons ha spacedList_nil

theorem spacedList_flatten {L : List (List String)} (h : ∀ l ∈ L, SpacedList l) :
    SpacedList L.flatten := by
  intro c hc
  rw [List.mem_flatten] at hc
  obtain ⟨l, hl, hcl⟩ := hc
  exact h l hl c hcl

theorem spacedList_safe {l : List String} (h : SpacedList l) :
    ∀ c ∈ l, c ≠ chartErrorMarker ∧ c ≠ transitErrorMarker := by
  intro c hc
  exact ne_marker_of_head_space c (h c hc)

theorem planetChunks_spaced (houses : HousesData) (hsys : Option String) :
    ∀ (ps : List (String × BodyData)) (out : List String),
      planetChunks houses hsys ps = .ok out → SpacedList out := by
  intro ps
  induction ps with
  | nil =>
    intro out hout
    cases hout
    exact spacedList_nil
  | cons p rest ih =>
    intro out hout
    obtain ⟨name, data⟩ := p
    unfold planetChunks at hout
    match hlon : data.longitude with
    | none =>
      rw [hlon] at hout
      cases hout
    | some lon =>
      rw [hlon] at hout
      dsimp only at hout
      match hhp : getHousePlacement lon houses.cusps houses.ascendant hsys with
      | .error e =>
        rw [hhp] at hout
        cases hout
      | .ok hp =>
        rw [hhp] at hout
        dsimp only at hout
        match hrec : planetChunks houses hsys rest with
        | .error e =>
          rw [hrec] at hout
          cases hout
        | .ok out2 =>
          rw [hrec] at hout
          cases hout
          refine spacedList_append (spacedList_append (spacedList_append (spacedList_append
            (spacedList_append (spacedList_append ?_ ?_) ?_) ?_) ?_) ?_) ?_
          · exact spacedList_cons ⟨_, rfl⟩ (spacedList_cons ⟨_, rfl⟩ (spacedList_singleton ⟨_, rfl⟩))
          · cases data.latitude
            · exact spacedList_nil
            · exact spacedList_singleton ⟨_, rfl⟩
          · cases data.speedLon
            · exact spacedList_nil
            · exact spacedList_singleton ⟨_, rfl⟩
          · cases data.isRetrograde
            · exact spacedList_nil
            · exact spacedList_singleton ⟨_, rfl⟩
          · exact spacedList_ite (spacedList_singleton ⟨_, rfl⟩)
          · exact spacedList_singleton ⟨_, rfl⟩
          · exact ih out2 hrec

theorem houseCuspsChunks_spaced (houses : HousesData) (out : List String)
    (hout : houseCuspsChunks houses = .ok out) : SpacedList out := by
  unfold houseCuspsChunks at hout
  match ha : houses.ascendant, hm : houses.mc with
  | some asc, some mc =>
    rw [ha, hm] at hout
    dsimp only at hout
    match hcs : houses.cusps with
    | some cs =>
      rw [hcs] at hout
      cases hout
      refine spacedList_append (spacedList_append ?_ ?_) ?_
      · exact spacedList_cons ⟨_, rfl⟩ (spacedList_cons ⟨_, rfl⟩ (spacedList_cons ⟨_, rfl⟩
          (spacedList_cons ⟨_, rfl⟩ (spacedList_singleton ⟨_, rfl⟩))))
      · apply spacedList_flatten
        intro l hl
        rw [List.mem_map] at hl
        obtain ⟨pr, _, rfl⟩ := hl
        exact spacedList_cons ⟨_, rfl⟩ (spacedList_cons ⟨_, rfl⟩ (spacedList_cons ⟨_, rfl⟩
          (spacedList_singleton ⟨_, rfl⟩)))
      · exact spacedList_singleton ⟨_, rfl⟩
    | none =>
      rw [hcs] at hout
      cases hout
  | some _, none =>
    rw [ha, hm] at hout
    cases hout
  | none, _ =>
    rw [ha] at hout
    cases hout

theorem transitPlanetChunks_spaced :
    ∀ (ps : List (String × BodyData)) (out : List String),
      transitPlanetChunks ps = .ok out → SpacedList out := by
  intro ps
  induction ps with
  | nil =>
    intro out hout
    cases hout
    exact spacedList_nil
  | cons p rest ih =>
    intro out hout
    obtain ⟨name, data⟩ := p
    unfold transitPlanetChunks at hout
    match hlon : data.longitude with
    | none =>
      rw [hlon] at hout
      cases hout
    | some lon =>
      rw [hlon] at hout
      dsimp only at hout
      match hrec : transitPlanetChunks rest with
      | .error e =>
        rw [hrec] at hout
        cases hout
      | .ok out2 =>
        rw [hrec] at hout
        cases hout
        refine spacedList_append (spacedList_append (spacedList_append
          (spacedList_append ?_ ?_) ?_) ?_) ?_
        · exact spacedList_cons ⟨_, rfl⟩ (spacedList_cons ⟨_, rfl⟩ (spacedList_singleton ⟨_, rfl⟩))
        · cases data.speedLon
          · exact spacedList_nil
          · exact spacedList_singleton ⟨_, rfl⟩
        · cases data.isRetrograde
          · exact spacedList_nil
          · exact spacedList_singleton ⟨_, rfl⟩
        · exact spacedList_singleton ⟨_, rfl⟩
        · exact ih out2 hrec

/-- Input on which the birth-chart serializer does not throw: every body has a
longitude, the houses object has ascendant/mc/cusps, a house system is set,
and a sidereal ayanamsa (when present with a truthy name) carries its value. -/
def WellFormedChart (cd : ChartData) : Prop :=
  (∃ ps, cd.planets = some ps ∧ ∀ p ∈ ps, (p.2).longitude.isSome = true) ∧
  (∃ hs, cd.houses = some hs ∧ hs.ascendant.isSome = true ∧ hs.mc.isSome = true ∧
    hs.cusps.isSome = true) ∧
  cd.houseSystem.isSome = true ∧
  (∀ ay, cd.ayanamsa = some ay → jsTruthyStr ay.name = true → ay.value.isSome = true)

/-- Input on which the transit serializer does not throw. -/
def WellFormedTransit (td : TransitData) : Prop :=
  jsTruthyStr td.date = true ∧
    ∃ ps, td.planets = some ps ∧ ∀ p ∈ ps, (p.2).longitude.isSome = true

theorem getHousePlacement_ok (lon : ℚ) (cusps : Option (List ℚ)) (asc : Option ℚ)
    (hs : String) : ∃ r, getHousePlacement lon cusps asc (some hs) = .ok r := by
  rcases cusps with _ | cs
  · exact ⟨none, rfl⟩
  · simp only [getHousePlacement]
    by_cases hlen : cs.length ≠ 12
    · rw [if_pos hlen]
      exact ⟨none, rfl⟩
    · rw [if_neg hlen]
      by_cases hw : jsToUpperCase hs = "W"
      · rw [if_pos hw]
        rcases asc with _ | a
        · exact ⟨none, rfl⟩
        · exact ⟨_, rfl⟩
      · rw [if_neg hw]
        exact ⟨_, rfl⟩

theorem planetChunks_ok (houses : HousesData) (hs : String) :
    ∀ ps : List (String × BodyData), (∀ p ∈ ps, (p.2).longitude.isSome = true) →
      ∃ out, planetChunks houses (some hs) ps = .ok out := by
  intro ps
  induction ps with
  | nil =>
    intro _
    exact ⟨[], rfl⟩
  | cons p rest ih =>
    intro hall
    obtain ⟨name, data⟩ := p
    obtain ⟨lon, hlon⟩ := Option.isSome_iff_exists.mp (hall (name, data) (List.mem_cons_self _ _))
    obtain ⟨out2, hout2⟩ := ih (fun q hq => hall q (List.mem_cons_of_mem _ hq))
    obtain ⟨r, hr⟩ := getHousePlacement_ok lon houses.cusps houses.ascendant hs
    unfold planetChunks
    rw [hlon]
    dsimp only
    rw [hr]
    dsimp only
    rw [hout2]
    exact ⟨_, rfl⟩

theorem houseCuspsChunks_ok (houses : HousesData) (hasc : houses.ascendant.isSome = true)
    (hmc : houses.mc.isSome = true) (hcs : houses.cusps.isSome = true) :
    ∃ out, houseCuspsChunks houses = .ok out := by
  obtain ⟨a, ha⟩ := Option.isSome_iff_exists.mp hasc
  obtain ⟨m, hm⟩ := Option.isSome_iff_exists.mp hmc
  obtain ⟨cs, hc⟩ := Option.isSome_iff_exists.mp hcs
  unfold houseCuspsChunks
  rw [ha, hm]
  dsimp only
  rw [hc]
  exact ⟨_, rfl⟩

theorem astroSystemChunks_ok (cd : ChartData)
    (hay : ∀ ay, cd.ayanamsa = some ay → jsTruthyStr ay.name = true → ay.value.isSome = true) :
    ∃ out, astroSystemChunks cd = .ok out := by
  unfold astroSystemChunks
  rcases hA : cd.ayanamsa with _ | ay
  · dsimp only
    exact ⟨_, rfl⟩
  · dsimp only
    by_cases hn : jsTruthyStr ay.name = true
    · rw [if_pos hn]
      obtain ⟨v, hv⟩ := Option.isSome_iff_exists.mp (hay ay hA hn)
      rw [hv]
      exact ⟨_, rfl⟩
    · rw [if_neg hn]
      exact ⟨_, rfl⟩

/-- A chart whose `planets` contains a body with no `longitude` field, while the
top-level `planets` and `houses` keys are present and the house data is intact. -/
def exBadChart : ChartData :=
  { name := none, birthDate := none, birthTime := none, location := none, gender := none,
    houseSystem := some "P", ayanamsa := none,
    planets := some [("Sun",
      { longitude := none, latitude := none, speedLon := none, isRetrograde := none })],
    houses := some { cusps := some [], ascendant := some 100, mc := some 200 } }

/-- Counterexample to claim C9 as stated: the claim says malformed or
incomplete input — including missing fields *within* bodies or houses — yields
an `<error>` marker and the serializer never throws.  On `exBadChart`
(a body with no `longitude`), `formatBirthChartDataAsXML` throws a `TypeError`
(`.toFixed` on `undefined`) instead of producing any marker. -/
theorem serializer_throws_counterexample :
    formatBirthChartDataAsXML exBadChart =
      .error "TypeError: Cannot read properties of undefined (reading toFixed)" := rfl

/-- Claim C9 (amended): entirely missing top-level sections (`planets`/`houses`
for charts; falsy `date` or missing `planets` for transits) yield exactly the
inline `<error>` marker without throwing; for well-formed input both
serializers return the structured tagged text, which never contains the
marker as a line.  (Missing fields *within* bodies or houses make the
JavaScript serializer throw a `TypeError` — see the counterexample.) -/
theorem serializer_error_marker_claim :
    (∀ cd : ChartData, cd.planets = none ∨ cd.houses = none →
      formatBirthChartDataAsXML cd = .ok [chartErrorMarker]) ∧
    (∀ td : TransitData, jsTruthyStr td.date = false ∨ td.planets = none →
      formatTransitDataAsXML td = .ok [transitErrorMarker]) ∧
    (∀ cd : ChartData, WellFormedChart cd →
      ∃ out, formatBirthChartDataAsXML cd = .ok out ∧ chartErrorMarker ∉ out) ∧
    (∀ td : TransitData, WellFormedTransit td →
      ∃ out, formatTransitDataAsXML td = .ok out ∧ transitErrorMarker ∉ out) := by
  refine ⟨?_, ?_, ?_, ?_⟩
  · intro cd h
    unfold formatBirthChartDataAsXML
    rcases h with h | h
    · rw [h]
    · rw [h]
      rcases cd.planets with _ | ps <;> rfl
  · intro td h
    unfold formatTransitDataAsXML
    rcases h with h | h
    · rw [h]
      rfl
    · rcases hd : jsTruthyStr td.date with _ | _
      · rfl
      · rw [if_pos rfl, h]
  · intro cd hwf
    obtain ⟨⟨ps, hps, hlon⟩, ⟨hs, hhs, hasc, hmc, hcs⟩, hsys, hay⟩ := hwf
    obtain ⟨sysStr, hsysStr⟩ := Option.isSome_iff_exists.mp hsys
    obtain ⟨sysOut, hsysOut⟩ := astroSystemChunks_ok cd hay
    obtain ⟨pOut, hpOut⟩ := planetChunks_ok hs sysStr ps hlon
    obtain ⟨hcOut, hhcOut⟩ := houseCuspsChunks_ok hs hasc hmc hcs
    refine ⟨["<birth_chart_details>\n"] ++ personalChunks cd ++ sysOut
      ++ ["  <planetary_positions>\n"] ++ pOut ++ ["  </planetary_positions>\n"]
      ++ hcOut ++ ["</birth_chart_details>"], ?_, ?_⟩
    · unfold formatBirthChartDataAsXML
      rw [hps, hhs]
      dsimp only
      rw [hsysOut]
      dsimp only [Except.bind]
      rw [hsysStr, hpOut]
      dsimp only
      rw [hhcOut]
    · intro hmem
      simp only [List.mem_append, List.mem_singleton] at hmem
      rcases hmem with ((((((h | h) | h) | h) | h) | h) | h) | h
      · exact absurd h (by decide)
      · exact personalChunks_safe cd _ h rfl
      · exact astroSystemChunks_safe cd sysOut hsysOut _ h rfl
      · exact absurd h (by decide)
      · exact (spacedList_safe (planetChunks_spaced hs (some sysStr) ps pOut
          (hsysStr ▸ hpOut)) _ h).1 rfl
      · exact absurd h (by decide)
      · exact (spacedList_safe (houseCuspsChunks_spaced hs hcOut hhcOut) _ h).1 rfl
      · exact absurd h (by decide)
  · intro td hwf
    obtain ⟨hdate, ps, hps, hlon⟩ := hwf
    have hok : ∀ qs : List (String × BodyData), (∀ p ∈ qs, (p.2).longitude.isSome = true) →
        ∃ out, transitPlanetChunks qs = .ok out := by
      intro qs
      induction qs with
      | nil =>
        intro _
        exact ⟨[], rfl⟩
      | cons q rest ih =>
        intro hall
        obtain ⟨name, data⟩ := q
        obtain ⟨lon, hlon'⟩ :=
          Option.isSome_iff_exists.mp (hall (name, data) (List.mem_cons_self _ _))
        obtain ⟨out2, hout2⟩ := ih (fun r hr => hall r (List.mem_cons_of_mem _ hr))
        unfold transitPlanetChunks
        rw [hlon']
        dsimp only
        rw [hout2]
        exact ⟨_, rfl⟩
    obtain ⟨pOut, hpOut⟩ := hok ps hlon
    refine ⟨["<transit_details>\n",
      "  <transit_date>" ++ td.date.getD "" ++ "</transit_date>\n",
      "  <transiting_planets>\n"] ++ pOut
      ++ ["  </transiting_planets>\n", "</transit_details>"], ?_, ?_⟩
    · unfold formatTransitDataAsXML
      rw [if_pos hdate, hps]
      dsimp only
      rw [hpOut]
      dsimp only [Except.bind]
    · intro hmem
      simp only [List.mem_append, List.mem_singleton, List.mem_cons, List.not_mem_nil,
        or_false] at hmem
      rcases hmem with ((h | h | h) | h) | h | h
      · exact absurd h (by decide)
      · exact (ne_marker_of_head_space _ ⟨_, rfl⟩).2 h.symm
      · exact absurd h (by decide)
      · exact (spacedList_safe (transitPlanetChunks_spaced ps pOut hpOut) _ h).2 rfl
      · exact absurd h (by decide)
      · exact absurd h (by decide)

/-- A chart object with no fields, and an empty transit object. -/
def exEmptyChart : ChartData :=
  { name := none, birthDate := none, birthTime := none, location := none, gender := none,
    houseSystem := none, ayanamsa := none, planets := none, houses := none }

def exEmptyTransit : TransitData := { date := none, planets := none }

/-- Witness for the amended C9 at concrete malformed inputs. -/
theorem serializer_error_marker_claim_witness :
    formatBirthChartDataAsXML exEmptyChart = .ok [chartErrorMarker] ∧
    formatTransitDataAsXML exEmptyTransit = .ok [transitErrorMarker] := by
  constructor
  · exact serializer_error_marker_claim.1 exEmptyChart (Or.inl rfl)
  · exact serializer_error_marker_claim.2.1 exEmptyTransit (Or.inl rfl)

/-! ## claude.js : getClaudeInsight (claims C1, C2, C7)

The Anthropic provider is modelled as a function from (attempt number, model
id) to an outcome; `prisma.apiLog.create` calls are collected in a `records`
list (one entry per `logClaudeApiCall` invocation, in chronological order);
the `trace` records, per attempt, the model used and the backoff wait in
milliseconds performed after that attempt (`none` when no wait happened). -/

/-- Default model ids from `claude.js` (no environment overrides). -/
def PREMIUM_MODEL : String := "claude-3-5-sonnet-20240620"

def BASIC_MODEL : String := "claude-3-haiku-20240307"

/-- `MODEL_PRICING` from `claude.js`: dollars per million tokens
(input, output). -/
def MODEL_PRICING (model : String) : Option (ℚ × ℚ) :=
  if model = PREMIUM_MODEL then some (3, 15)
  else if model = BASIC_MODEL then some (1 / 4, 5 / 4)
  else none

/-- `calculateCost` from `claude.js`. -/
def calculateCost (model : String) (inputTokens outputTokens : ℚ) : ℚ :=
  match MODEL_PRICING model with
  | none => 0
  | some pricing =>
    inputTokens / 1000000 * pricing.1 + outputTokens / 1000000 * pricing.2

structure Message where
  role : String
  content : String

/-- A successful provider response: the first content block's text (if any)
and the optional `usage` token counts (`response.usage?.input_tokens` /
`output_tokens`, with missing object or missing field both `none`). -/
structure ProviderSuccess where
  text : Option String
  usageIn : Option ℚ
  usageOut : Option ℚ

/-- JavaScript `a || b` on an optional numeric left operand: `undefined` and
`0` are falsy (`NaN` and `undefined` are both modelled as `none`). -/
def jsOrNum (v : Option ℚ) (fallback : Option ℚ) : Option ℚ :=
  match v with
  | some n => if n = 0 then fallback else some n
  | none => fallback

/-- One `apiLog` (UsageLedger) record as produced by `logClaudeApiCall`;
fields that JavaScript leaves `undefined` are `none`. -/
structure LedgerRecord where
  model : String
  promptTokens : Option ℚ
  completionTokens : Option ℚ
  cost : Option ℚ
  isSuccess : Bool
  errorMessage : Option String

/-- The value returned by a successful `getClaudeInsight` call. -/
structure InsightResult where
  content : String
  modelUsed : String
  usageIn : Option ℚ
  usageOut : Option ℚ
  cost : Option ℚ

/-- Observable outcome of one `getClaudeInsight` call. -/
structure ClaudeRun where
  result : Except String InsightResult
  records : List LedgerRecord
  trace : List (String × Option ℚ)

def maxAttempts : ℕ := 2

/-- `messages.map(m => m.content).join('\n')`. -/
def inputTextOf (messages : List Message) : String :=
  String.intercalate "\n" (messages.map Message.content)

/-- The token/cost accounting and ledger record of a successful attempt. -/
def successRecord (messages : List Message) (model : String) (resp : ProviderSuccess) :
    LedgerRecord :=
  let promptTokens := jsOrNum resp.usageIn (some (((inputTextOf messages).length : ℚ) / 4))
  let completionTokens := jsOrNum resp.usageOut (resp.text.map fun t => ((t.length : ℚ) / 4))
  let cost := match promptTokens, completionTokens with
    | some i, some o => some (calculateCost model i o)
    | _, _ => none
  { model := model, promptTokens := promptTokens, completionTokens := completionTokens,
    cost := cost, isSuccess := true, errorMessage := none }

/-- The value returned after a successful attempt. -/
def successResult (messages : List Message) (model : String) (resp : ProviderSuccess) :
    InsightResult :=
  { content := resp.text.getD "", modelUsed := model, usageIn := resp.usageIn,
    usageOut := resp.usageOut, cost := (successRecord messages model resp).cost }

/-- The ledger record of a failed attempt: no token counts, no cost. -/
def failureRecord (model : String) (errMsg : String) : LedgerRecord :=
  { model := model, promptTokens := none, completionTokens := none, cost := none,
    isSuccess := false, errorMessage := some errMsg }

/-- The `while (attempt <= maxAttempts)` loop of `getClaudeInsight`.  `fuel`
is `maxAttempts - attempt + 1`; a failure on the last attempt throws, so the
loop never falls through — the `fuel = 0` case (JavaScript would return
`undefined`) is unreachable. -/
def attemptLoop (provider : ℕ → String → Except String ProviderSuccess)
    (messages : List Message) : String → ℕ → ℕ → ClaudeRun
  | _, _, 0 =>
    { result := .error "unreachable: while loop fell through", records := [], trace := [] }
  | modelToUse, attempt, fuel + 1 =>
    match provider attempt modelToUse with
    | .ok resp =>
      { result := .ok (successResult messages modelToUse resp),
        records := [successRecord messages modelToUse resp],
        trace := [(modelToUse, none)] }
    | .error errMsg =>
      if attempt = maxAttempts then
        { result := .error ("AI service request failed after " ++ toString maxAttempts
            ++ " attempts: " ++ errMsg),
          records := [failureRecord modelToUse errMsg],
          trace := [(modelToUse, none)] }
      else if modelToUse = PREMIUM_MODEL ∧ BASIC_MODEL ≠ PREMIUM_MODEL then
        let next := attemptLoop provider messages BASIC_MODEL (attempt + 1) fuel
        { result := next.result,
          records := failureRecord modelToUse errMsg :: next.records,
          trace := (modelToUse, none) :: next.trace }
      else
        let next := attemptLoop provider messages modelToUse (attempt + 1) fuel
        { result := next.result,
          records := failureRecord modelToUse errMsg :: next.records,
          trace := (modelToUse, some (1000 * (attempt : ℚ))) :: next.trace }

/-- `getClaudeInsight` from `claude.js`, as a function of the provider outcome
per attempt.  (The missing-API-key early throw is environment configuration,
not claim behavior, and is omitted.) -/
def getClaudeInsight (provider : ℕ → String → Except String ProviderSuccess)
    (systemPrompt : String) (messages : List Message) (userPlan : String) : ClaudeRun :=
  let modelToUse := if userPlan = "premium" then PREMIUM_MODEL else BASIC_MODEL
  attemptLoop provider messages modelToUse 1 maxAttempts

/-- A one-message conversation used in the concrete examples below. -/
def exMessages : List Message := [{ role := "user", content := "hello!!!" }]

/-- A provider response whose reported input token count is `0` — JavaScript
`||` treats it as falsy, so the code substitutes the length estimate. -/
def exResp : ProviderSuccess := { text := some "ok!!", usageIn := some 0, usageOut := some 20 }

/-- A provider that fails the first attempt with a transient error and
succeeds on the retry. -/
def exProviderFailFirst : ℕ → String → Except String ProviderSuccess :=
  fun attempt _ => if attempt = 1 then .error "overloaded" else .ok exResp

/-- A provider that fails every attempt. -/
def exProviderAlwaysFail : ℕ → String → Except String ProviderSuccess :=
  fun _ _ => .error "boom"

/-- Full behavioral characterization of one `getClaudeInsight` call in terms
of the provider outcomes of its (at most two) attempts. -/
theorem getClaudeInsight_run (provider : ℕ → String → Except String ProviderSuccess)
    (sys : String) (msgs : List Message) (plan : String) :
    getClaudeInsight provider sys msgs plan =
      (let m1 := if plan = "premium" then PREMIUM_MODEL else BASIC_MODEL
       match provider 1 m1 with
       | .ok resp =>
         { result := .ok (successResult msgs m1 resp),
           records := [successRecord msgs m1 resp],
           trace := [(m1, none)] }
       | .error e1 =>
         let m2 := if m1 = PREMIUM_MODEL then BASIC_MODEL else m1
         let w1 : Option ℚ := if m1 = PREMIUM_MODEL then none else some 1000
         match provider 2 m2 with
         | .ok resp =>
           { result := .ok (successResult msgs m2 resp),
             records := [failureRecord m1 e1, successRecord msgs m2 resp],
             trace := [(m1, w1), (m2, none)] }
         | .error e2 =>
           { result := .error ("AI service request failed after 2 attempts: " ++ e2),
             records := [failureRecord m1 e1, failureRecord m2 e2],
             trace := [(m1, w1), (m2, none)] }) := by
  unfold getClaudeInsight maxAttempts
  have hBP : ¬ (BASIC_MODEL = PREMIUM_MODEL) := by decide
  have hstr : ("AI service request failed after " ++ toString 2 ++ " attempts: " : String)
      = "AI service request failed after 2 attempts: " := rfl
  by_cases hp : plan = "premium"
  · rcases h1 : provider 1 PREMIUM_MODEL with e1 | resp
    · rcases h2 : provider 2 BASIC_MODEL with e2 | resp
      · simp [attemptLoop, maxAttempts, h1, h2, hp, hBP, hstr]
      · simp [attemptLoop, maxAttempts, h1, h2, hp, hBP, hstr]
    · simp [attemptLoop, maxAttempts, h1, hp, hBP, hstr]
  · rcases h1 : provider 1 BASIC_MODEL with e1 | resp
    · rcases h2 : provider 2 BASIC_MODEL with e2 | resp
      · simp [attemptLoop, maxAttempts, h1, h2, hp, hBP, hstr]
      · simp [attemptLoop, maxAttempts, h1, h2, hp, hBP, hstr]
    · simp [attemptLoop, maxAttempts, h1, hp, hBP, hstr]

/-- Claim C1: the initial model is the premium model exactly when the plan
tier is `"premium"` (economical otherwise); at most 2 attempts are made; after
a first-attempt provider error the premium model downgrades to the economical
model and retries with no wait, while a non-premium current model waits the
increasing backoff (1000·attempt ms, so 1000 ms after attempt 1) and retries
with the same model; and a successful result's `modelUsed` is the model of the
(successful, last) attempt. -/
theorem claude_model_dispatch_claim (provider : ℕ → String → Except String ProviderSuccess)
    (sys : String) (msgs : List Message) (plan : String) :
    ((if plan = "premium" then PREMIUM_MODEL else BASIC_MODEL) = PREMIUM_MODEL ↔
      plan = "premium") ∧
    (getClaudeInsight provider sys msgs plan).trace.length ≤ 2 ∧
    ((getClaudeInsight provider sys msgs plan).trace.map Prod.fst).head? =
      some (if plan = "premium" then PREMIUM_MODEL else BASIC_MODEL) ∧
    (∀ e1, provider 1 (if plan = "premium" then PREMIUM_MODEL else BASIC_MODEL) = .error e1 →
      (getClaudeInsight provider sys msgs plan).trace =
        [((if plan = "premium" then PREMIUM_MODEL else BASIC_MODEL),
          if (if plan = "premium" then PREMIUM_MODEL else BASIC_MODEL) = PREMIUM_MODEL
          then none else some 1000),
         ((if (if plan = "premium" then PREMIUM_MODEL else BASIC_MODEL) = PREMIUM_MODEL
           then BASIC_MODEL else (if plan = "premium" then PREMIUM_MODEL else BASIC_MODEL)),
          none)]) ∧
    (∀ r, (getClaudeInsight provider sys msgs plan).result = .ok r →
      ((getClaudeInsight provider sys msgs plan).trace.map Prod.fst).getLast? =
        some r.modelUsed ∧
      ∃ resp,
        provider (getClaudeInsight provider sys msgs plan).trace.length r.modelUsed =
          .ok resp) := by
  have hBP : ¬ (BASIC_MODEL = PREMIUM_MODEL) := by decide
  have hrun := getClaudeInsight_run provider sys msgs plan
  by_cases hp : plan = "premium" <;>
    simp only [hp, reduceIte] at hrun ⊢
  · rcases h1 : provider 1 PREMIUM_MODEL with e1 | resp
    · rcases h2 : provider 2 BASIC_MODEL with e2 | resp <;>
        simp only [h1, h2, reduceIte] at hrun <;>
        rw [hrun] <;>
        simp [successResult, h2, hp, hBP]
    · simp only [h1] at hrun
      rw [hrun]
      simp [successResult, h1, hBP]
  · rcases h1 : provider 1 BASIC_MODEL with e1 | resp
    · rcases h2 : provider 2 BASIC_MODEL with e2 | resp <;>
        simp only [h1, h2, reduceIte, hBP] at hrun <;>
        rw [hrun] <;>
        simp [successResult, h2, hp, hBP]
    · simp only [h1] at hrun
      rw [hrun]
      simp [successResult, h1, hBP]

/-- Witness for C1: with a premium plan and a provider that fails once, the
trace is premium-with-no-wait then economical, and the successful result's
model is the economical model (the downgrade happened). -/
theorem claude_model_dispatch_claim_witness :
    (getClaudeInsight exProviderFailFirst "sys" exMessages "premium").trace =
      [(PREMIUM_MODEL, (none : Option ℚ)), (BASIC_MODEL, none)] ∧
    ((getClaudeInsight exProviderFailFirst "sys" exMessages "premium").trace.map
      Prod.fst).getLast? =
      some (successResult exMessages BASIC_MODEL exResp).modelUsed := by
  have h := claude_model_dispatch_claim exProviderFailFirst "sys" exMessages "premium"
  exact ⟨h.2.2.2.1 "overloaded" rfl,
    (h.2.2.2.2 (successResult exMessages BASIC_MODEL exResp) rfl).1⟩

/-- Claim C2: exactly one ledger record per attempt — successes and failures
alike, in attempt order with the attempt's model — and when both attempts
fail the call returns the error wrapping the *last* provider error, the
records for the failed attempts having been produced (they are in the ledger
list, which `logClaudeApiCall` awaits before the throw). -/
theorem claude_ledger_claim (provider : ℕ → String → Except String ProviderSuccess)
    (sys : String) (msgs : List Message) (plan : String) :
    (getClaudeInsight provider sys msgs plan).records.length =
      (getClaudeInsight provider sys msgs plan).trace.length ∧
    (getClaudeInsight provider sys msgs plan).records.map LedgerRecord.model =
      (getClaudeInsight provider sys msgs plan).trace.map Prod.fst ∧
    (∀ i rec, (getClaudeInsight provider sys msgs plan).records.get? i = some rec →
      rec.isSuccess = (provider (i + 1) rec.model).isOk) ∧
    (∀ e1 e2,
      provider 1 (if plan = "premium" then PREMIUM_MODEL else BASIC_MODEL) = .error e1 →
      provider 2 (if (if plan = "premium" then PREMIUM_MODEL else BASIC_MODEL) = PREMIUM_MODEL
        then BASIC_MODEL else (if plan = "premium" then PREMIUM_MODEL else BASIC_MODEL)) =
        .error e2 →
      (getClaudeInsight provider sys msgs plan).result =
        .error ("AI service request failed after 2 attempts: " ++ e2) ∧
      (getClaudeInsight provider sys msgs plan).records =
        [failureRecord (if plan = "premium" then PREMIUM_MODEL else BASIC_MODEL) e1,
         failureRecord (if (if plan = "premium" then PREMIUM_MODEL else BASIC_MODEL) =
             PREMIUM_MODEL then BASIC_MODEL
           else (if plan = "premium" then PREMIUM_MODEL else BASIC_MODEL)) e2]) := by
  have hBP : ¬ (BASIC_MODEL = PREMIUM_MODEL) := by decide
  have hrun := getClaudeInsight_run provider sys msgs plan
  by_cases hp : plan = "premium" <;>
    simp only [hp, hBP, reduceIte] at hrun ⊢
  · rcases h1 : provider 1 PREMIUM_MODEL with e1 | resp
    · rcases h2 : provider 2 BASIC_MODEL with e2 | resp <;>
        simp only [h1, h2, reduceIte] at hrun <;> rw [hrun]
      · refine ⟨rfl, rfl, ?_, ?_⟩
        · intro i rec hrec
          rcases i with _ | _ | i
          · simp only [List.get?_cons_zero, Option.some.injEq] at hrec
            subst hrec
            simp [failureRecord, Except.isOk, Except.toBool, h1]
          · simp only [List.get?_cons_succ, List.get?_cons_zero, Option.some.injEq] at hrec
            subst hrec
            simp [failureRecord, Except.isOk, Except.toBool, h2]
          · simp only [List.get?_cons_succ, List.get?_nil] at hrec
            exact Option.noConfusion hrec
        · intro f1 f2 hf1 hf2
          injection hf1 with hh1
          injection hf2 with hh2
          subst hh1
          subst hh2
          exact ⟨rfl, rfl⟩
      · refine ⟨rfl, rfl, ?_, ?_⟩
        · intro i rec hrec
          rcases i with _ | _ | i
          · simp only [List.get?_cons_zero, Option.some.injEq] at hrec
            subst hrec
            simp [failureRecord, Except.isOk, Except.toBool, h1]
          · simp only [List.get?_cons_succ, List.get?_cons_zero, Option.some.injEq] at hrec
            subst hrec
            simp [successRecord, Except.isOk, Except.toBool, h2]
          · simp only [List.get?_cons_succ, List.get?_nil] at hrec
            exact Option.noConfusion hrec
        · intro f1 f2 hf1 hf2
          exact Except.noConfusion hf2
    · simp only [h1] at hrun
      rw [hrun]
      refine ⟨rfl, rfl, ?_, ?_⟩
      · intro i rec hrec
        rcases i with _ | i
        · simp only [List.get?_cons_zero, Option.some.injEq] at hrec
          subst hrec
          simp [successRecord, Except.isOk, Except.toBool, h1]
        · simp only [List.get?_cons_succ, List.get?_nil] at hrec
          exact Option.noConfusion hrec
      · intro f1 f2 hf1 hf2
        exact Except.noConfusion hf1
  · rcases h1 : provider 1 BASIC_MODEL with e1 | resp
    · rcases h2 : provider 2 BASIC_MODEL with e2 | resp <;>
        simp only [h1, h2, reduceIte, hBP] at hrun <;> rw [hrun]
      · refine ⟨rfl, rfl, ?_, ?_⟩
        · intro i rec hrec
          rcases i with _ | _ | i
          · simp only [List.get?_cons_zero, Option.some.injEq] at hrec
            subst hrec
            simp [failureRecord, Except.isOk, Except.toBool, h1]
          · simp only [List.get?_cons_succ, List.get?_cons_zero, Option.some.injEq] at hrec
            subst hrec
            simp [failureRecord, Except.isOk, Except.toBool, h2]
          · simp only [List.get?_cons_succ, List.get?_nil] at hrec
            exact Option.noConfusion hrec
        · intro f1 f2 hf1 hf2
          injection hf1 with hh1
          injection hf2 with hh2
          subst hh1
          subst hh2
          exact ⟨rfl, rfl⟩
      · refine ⟨rfl, rfl, ?_, ?_⟩
        · intro i rec hrec
          rcases i with _ | _ | i
          · simp only [List.get?_cons_zero, Option.some.injEq] at hrec
            subst hrec
            simp [failureRecord, Except.isOk, Except.toBool, h1]
          · simp only [List.get?_cons_succ, List.get?_cons_zero, Option.some.injEq] at hrec
            subst hrec
            simp [successRecord, Except.isOk, Except.toBool, h2]
          · simp only [List.get?_cons_succ, List.get?_nil] at hrec
            exact Option.noConfusion hrec
        · intro f1 f2 hf1 hf2
          exact Except.noConfusion hf2
    · simp only [h1] at hrun
      rw [hrun]
      refine ⟨rfl, rfl, ?_, ?_⟩
      · intro i rec hrec
        rcases i with _ | i
        · simp only [List.get?_cons_zero, Option.some.injEq] at hrec
          subst hrec
          simp [successRecord, Except.isOk, Except.toBool, h1]
        · simp only [List.get?_cons_succ, List.get?_nil] at hrec
          exact Option.noConfusion hrec
      · intro f1 f2 hf1 hf2
        exact Except.noConfusion hf1

/-- Witness for C2: with a premium plan and a provider that always fails, the
call returns the error wrapping the last provider error, the two failure
records are in the ledger, and the first record's success flag matches the
first attempt's outcome. -/
theorem claude_ledger_claim_witness :
    (getClaudeInsight exProviderAlwaysFail "sys" exMessages "premium").result =
      .error "AI service request failed after 2 attempts: boom" ∧
    (getClaudeInsight exProviderAlwaysFail "sys" exMessages "premium").records =
      [failureRecord PREMIUM_MODEL "boom", failureRecord BASIC_MODEL "boom"] ∧
    (failureRecord PREMIUM_MODEL "boom").isSuccess =
      (exProviderAlwaysFail 1 (failureRecord PREMIUM_MODEL "boom").model).isOk := by
  have h := claude_ledger_claim exProviderAlwaysFail "sys" exMessages "premium"
  have hff := h.2.2.2 "boom" "boom" rfl rfl
  exact ⟨hff.1, hff.2, h.2.2.1 0 (failureRecord PREMIUM_MODEL "boom") rfl⟩

/-- Claim C7 (amended): each attempt's ledger record carries the model of that
attempt; a successful attempt reports the provider's token counts when they
are present *and nonzero* (JavaScript `||` treats a reported `0` as absent),
otherwise the character-length÷4 estimates, with cost `in/1e6·p_in +
out/1e6·p_out` from the model's price-table entry; a failed attempt's record
carries only the model id and error message — no token counts and no cost. -/
theorem claude_usage_report_claim (provider : ℕ → String → Except String ProviderSuccess)
    (sys : String) (msgs : List Message) (plan : String) :
    (∀ i rec, (getClaudeInsight provider sys msgs plan).records.get? i = some rec →
      (rec.model = PREMIUM_MODEL ∨ rec.model = BASIC_MODEL) ∧
      (∀ e, provider (i + 1) rec.model = .error e →
        rec.promptTokens = none ∧ rec.completionTokens = none ∧ rec.cost = none ∧
          rec.isSuccess = false ∧ rec.errorMessage = some e) ∧
      (∀ resp, provider (i + 1) rec.model = .ok resp →
        rec.promptTokens =
          jsOrNum resp.usageIn (some (((inputTextOf msgs).length : ℚ) / 4)) ∧
        rec.completionTokens =
          jsOrNum resp.usageOut (resp.text.map fun t => ((t.length : ℚ) / 4)) ∧
        rec.cost = (match rec.promptTokens, rec.completionTokens with
          | some tin, some tout => some (calculateCost rec.model tin tout)
          | _, _ => none))) ∧
    (∀ tin tout : ℚ,
      calculateCost PREMIUM_MODEL tin tout = tin / 1000000 * 3 + tout / 1000000 * 15) ∧
    (∀ tin tout : ℚ,
      calculateCost BASIC_MODEL tin tout =
        tin / 1000000 * (1 / 4) + tout / 1000000 * (5 / 4)) := by
  have hBP : ¬ (BASIC_MODEL = PREMIUM_MODEL) := by decide
  refine ⟨?_, ?_, ?_⟩
  · have hrun := getClaudeInsight_run provider sys msgs plan
    by_cases hp : plan = "premium" <;>
      simp only [hp, hBP, reduceIte] at hrun ⊢
    · rcases h1 : provider 1 PREMIUM_MODEL with e1 | resp
      · rcases h2 : provider 2 BASIC_MODEL with e2 | resp <;>
          simp only [h1, h2, reduceIte] at hrun <;> rw [hrun] <;> intro i rec hrec
        rcases i with _ | _ | i
        · simp only [List.get?_cons_zero, Option.some.injEq] at hrec
          subst hrec
          refine ⟨Or.inl rfl, ?_, ?_⟩
          · intro e he
            simp only [failureRecord, Nat.reduceAdd] at he
            rw [h1] at he
            injection he with hh
            subst hh
            exact ⟨rfl, rfl, rfl, rfl, rfl⟩
          · intro resp2 hresp
            simp only [failureRecord, Nat.reduceAdd] at hresp
            rw [h1] at hresp
            exact Except.noConfusion hresp
        · simp only [List.get?_cons_succ, List.get?_cons_zero, Option.some.injEq] at hrec
          subst hrec
          refine ⟨Or.inr rfl, ?_, ?_⟩
          · intro e he
            simp only [failureRecord, Nat.reduceAdd] at he
            rw [h2] at he
            injection he with hh
            subst hh
            exact ⟨rfl, rfl, rfl, rfl, rfl⟩
          · intro resp2 hresp
            simp only [failureRecord, Nat.reduceAdd] at hresp
            rw [h2] at hresp
            exact Except.noConfusion hresp
        · simp only [List.get?_cons_succ, List.get?_nil] at hrec
          exact Option.noConfusion hrec
        rcases i with _ | _ | i
        · simp only [List.get?_cons_zero, Option.some.injEq] at hrec
          subst hrec
          refine ⟨Or.inl rfl, ?_, ?_⟩
          · intro e he
            simp only [failureRecord, Nat.reduceAdd] at he
            rw [h1] at he
            injection he with hh
            subst hh
            exact ⟨rfl, rfl, rfl, rfl, rfl⟩
          · intro resp2 hresp
            simp only [failureRecord, Nat.reduceAdd] at hresp
            rw [h1] at hresp
            exact Except.noConfusion hresp
        · simp only [List.get?_cons_succ, List.get?_cons_zero, Option.some.injEq] at hrec
          subst hrec
          refine ⟨Or.inr rfl, ?_, ?_⟩
          · intro e he
            simp only [successRecord, Nat.reduceAdd] at he
            rw [h2] at he
            exact Except.noConfusion he
          · intro resp2 hresp
            simp only [successRecord, Nat.reduceAdd] at hresp
            rw [h2] at hresp
            injection hresp with hh
            subst hh
            exact ⟨rfl, rfl, rfl⟩
        · simp only [List.get?_cons_succ, List.get?_nil] at hrec
          exact Option.noConfusion hrec
      · simp only [h1] at hrun
        rw [hrun]
        intro i rec hrec
        rcases i with _ | i
        · simp only [List.get?_cons_zero, Option.some.injEq] at hrec
          subst hrec
          refine ⟨Or.inl rfl, ?_, ?_⟩
          · intro e he
            simp only [successRecord, Nat.reduceAdd] at he
            rw [h1] at he
            exact Except.noConfusion he
          · intro resp2 hresp
            simp only [successRecord, Nat.reduceAdd] at hresp
            rw [h1] at hresp
            injection hresp with hh
            subst hh
            exact ⟨rfl, rfl, rfl⟩
        · simp only [List.get?_cons_succ, List.get?_nil] at hrec
          exact Option.noConfusion hrec
    · rcases h1 : provider 1 BASIC_MODEL with e1 | resp
      · rcases h2 : provider 2 BASIC_MODEL with e2 | resp <;>
          simp only [h1, h2, reduceIte, hBP] at hrun <;> rw [hrun] <;> intro i rec hrec
        rcases i with _ | _ | i
        · simp only [List.get?_cons_zero, Option.some.injEq] at hrec
          subst hrec
          refine ⟨Or.inr rfl, ?_, ?_⟩
          · intro e he
            simp only [failureRecord, Nat.reduceAdd] at he
            rw [h1] at he
            injection he with hh
            subst hh
            exact ⟨rfl, rfl, rfl, rfl, rfl⟩
          · intro resp2 hresp
            simp only [failureRecord, Nat.reduceAdd] at hresp
            rw [h1] at hresp
            exact Except.noConfusion hresp
        · simp only [List.get?_cons_succ, List.get?_cons_zero, Option.some.injEq] at hrec
          subst hrec
          refine ⟨Or.inr rfl, ?_, ?_⟩
          · intro e he
            simp only [failureRecord, Nat.reduceAdd] at he
            rw [h2] at he
            injection he with hh
            subst hh
            exact ⟨rfl, rfl, rfl, rfl, rfl⟩
          · intro resp2 hresp
            simp only [failureRecord, Nat.reduceAdd] at hresp
            rw [h2] at hresp
            exact Except.noConfusion hresp
        · simp only [List.get?_cons_succ, List.get?_nil] at hrec
          exact Option.noConfusion hrec
        rcases i with _ | _ | i
        · simp only [List.get?_cons_zero, Option.some.injEq] at hrec
          subst hrec
          refine ⟨Or.inr rfl, ?_, ?_⟩
          · intro e he
            simp only [failureRecord, Nat.reduceAdd] at he
            rw [h1] at he
            injection he with hh
            subst hh
            exact ⟨rfl, rfl, rfl, rfl, rfl⟩
          · intro resp2 hresp
            simp only [failureRecord, Nat.reduceAdd] at hresp
            rw [h1] at hresp
            exact Except.noConfusion hresp
        · simp only [List.get?_cons_succ, List.get?_cons_zero, Option.some.injEq] at hrec
          subst hrec
          refine ⟨Or.inr rfl, ?_, ?_⟩
          · intro e he
            simp only [successRecord, Nat.reduceAdd] at he
            rw [h2] at he
            exact Except.noConfusion he
          · intro resp2 hresp
            simp only [successRecord, Nat.reduceAdd] at hresp
            rw [h2] at hresp
            injection hresp with hh
            subst hh
            exact ⟨rfl, rfl, rfl⟩
        · simp only [List.get?_cons_succ, List.get?_nil] at hrec
          exact Option.noConfusion hrec
      · simp only [h1] at hrun
        rw [hrun]
        intro i rec hrec
        rcases i with _ | i
        · simp only [List.get?_cons_zero, Option.some.injEq] at hrec
          subst hrec
          refine ⟨Or.inr rfl, ?_, ?_⟩
          · intro e he
            simp only [successRecord, Nat.reduceAdd] at he
            rw [h1] at he
            exact Except.noConfusion he
          · intro resp2 hresp
            simp only [successRecord, Nat.reduceAdd] at hresp
            rw [h1] at hresp
            injection hresp with hh
            subst hh
            exact ⟨rfl, rfl, rfl⟩
        · simp only [List.get?_cons_succ, List.get?_nil] at hrec
          exact Option.noConfusion hrec
  · intro tin tout
    simp [calculateCost, MODEL_PRICING]
  · intro tin tout
    simp [calculateCost, MODEL_PRICING, hBP]

/-- Witness for C7: on a basic-plan run whose first attempt fails and whose
second succeeds, the failure record has no token counts, no cost and the
error message, and the success record carries the `||`-resolved token counts
and the matching cost. -/
theorem claude_usage_report_claim_witness :
    ((failureRecord BASIC_MODEL "overloaded").promptTokens = none ∧
      (failureRecord BASIC_MODEL "overloaded").completionTokens = none ∧
      (failureRecord BASIC_MODEL "overloaded").cost = none ∧
      (failureRecord BASIC_MODEL "overloaded").isSuccess = false ∧
      (failureRecord BASIC_MODEL "overloaded").errorMessage = some "overloaded") ∧
    ((successRecord exMessages BASIC_MODEL exResp).promptTokens =
        jsOrNum exResp.usageIn (some (((inputTextOf exMessages).length : ℚ) / 4)) ∧
      (successRecord exMessages BASIC_MODEL exResp).completionTokens =
        jsOrNum exResp.usageOut (exResp.text.map fun t => ((t.length : ℚ) / 4)) ∧
      (successRecord exMessages BASIC_MODEL exResp).cost =
        (match (successRecord exMessages BASIC_MODEL exResp).promptTokens,
               (successRecord exMessages BASIC_MODEL exResp).completionTokens with
          | some tin, some tout =>
            some (calculateCost (successRecord exMessages BASIC_MODEL exResp).model tin tout)
          | _, _ => none)) := by
  have h := (claude_usage_report_claim exProviderFailFirst "sys" exMessages "basic").1
  exact ⟨(h 0 (failureRecord BASIC_MODEL "overloaded") rfl).2.1 "overloaded" rfl,
    (h 1 (successRecord exMessages BASIC_MODEL exResp) rfl).2.2 exResp rfl⟩

/-- Counterexample to C7 as stated: the provider *did* report an input token
count (`0`), yet the success record's prompt-token count is the length
estimate `8 / 4 = 2` — JavaScript `||` discards a reported `0`; and the
failure record carries no token counts at all, though the spec says every
attempt is reported with token counts and cost. -/
theorem claude_usage_counterexample :
    exResp.usageIn = some 0 ∧
    (getClaudeInsight exProviderFailFirst "sys" exMessages "basic").records.map
      LedgerRecord.promptTokens = [none, some 2] ∧
    (getClaudeInsight exProviderFailFirst "sys" exMessages "basic").records.map
      LedgerRecord.cost = [none, some (calculateCost BASIC_MODEL 2 20)] ∧
    (getClaudeInsight exProviderFailFirst "sys" exMessages "basic").records.map
      LedgerRecord.isSuccess = [false, true] := by
  have hrec : (getClaudeInsight exProviderFailFirst "sys" exMessages "basic").records =
      [failureRecord BASIC_MODEL "overloaded", successRecord exMessages BASIC_MODEL exResp] :=
    rfl
  have hlen : ((inputTextOf exMessages).length : ℚ) = 8 := by decide
  refine ⟨rfl, ?_, ?_, rfl⟩
  · rw [hrec]
    simp [failureRecord, successRecord, jsOrNum, exResp, hlen]
    norm_num
  · rw [hrec]
    simp [failureRecord, successRecord, jsOrNum, exResp, hlen]
    norm_num [calculateCost]


/-! ## Ephemeris integration (`ephemeris.js`)

`calculateBirthChartData` drives the Swiss Ephemeris wrapper `sweph-js`.  The
oracle (the `sweph` module) is modelled as pure result functions plus an
explicit process-wide mutable state: the sidereal mode set by
`swe_set_sid_mode` and a log of the planet ids passed to `swe_calc_ut`.
Julian-day computation, logging, `swe_close` and the date/location echo
fields of the returned object are elided; everything the claims speak about
(planet loop, Ketu derivation, house call, sidereal-mode set/reset and the
error exits) is embedded faithfully. -/

/-- Result of `sweph.swe_calc_ut`: return code, position array `xx`
(longitude, latitude, distance, speedLon, speedLat, speedDist) and the error
string (`none` or `""` mean no error). -/
structure CalcResult where
  ret : ℤ
  xx : List ℚ
  serr : Option String

/-- Result of `sweph.swe_houses_ex`: return code, 1-based cusp array and the
`ascmc` array (ascendant, mc, armc, vertex, ...). -/
structure HousesResult where
  ret : ℤ
  cusps : List ℚ
  ascmc : List ℚ
  serr : Option String

/-- The pure part of the `sweph` module for a fixed Julian day: `swe_calc_ut`
as a function of planet id and flags, `swe_get_ayanamsa_ut`, and
`swe_houses_ex` as a function of flags. -/
structure Oracle where
  calcUt : ℕ → ℕ → CalcResult
  ayanamsa : ℚ
  housesEx : ℕ → HousesResult

/-- The process-wide mutable state of the oracle: the sidereal mode last set
by `swe_set_sid_mode`, and the log of planet ids queried via `swe_calc_ut`. -/
structure OracleState where
  sidMode : ℕ
  queries : List ℕ

def seflgSpeed : ℕ := 256

def seflgSidereal : ℕ := 65536

/-- `AYANAMSA_MODES` from `ephemeris.js` (LAHIRI, RAMAN, KRISHNAMURTI map to
the `sweph` sidereal-mode constants 1, 3, 5); any other key is `undefined`. -/
def AYANAMSA_MODES (name : String) : Option ℕ :=
  if name = "LAHIRI" then some 1
  else if name = "RAMAN" then some 3
  else if name = "KRISHNAMURTI" then some 5
  else none

/-- JavaScript truthiness of `AYANAMSA_MODES[...]` (`undefined` and `0` are
falsy). -/
def jsTruthyNatOpt : Option ℕ → Bool
  | none => false
  | some n => decide (n ≠ 0)

/-- `PLANET_LIST` from `ephemeris.js`: the `Object.entries` insertion order of
the eleven queried bodies, `SE_SUN = 0` through `SE_MEAN_NODE = 10` (Rahu). -/
def PLANET_LIST : List (String × ℕ) :=
  [("SE_SUN", 0), ("SE_MOON", 1), ("SE_MERCURY", 2), ("SE_VENUS", 3), ("SE_MARS", 4),
   ("SE_JUPITER", 5), ("SE_SATURN", 6), ("SE_URANUS", 7), ("SE_NEPTUNE", 8),
   ("SE_PLUTO", 9), ("SE_MEAN_NODE", 10)]

/-- `PLANET_NAMES` from `ephemeris.js`, keyed by `sweph` planet id. -/
def PLANET_NAMES (id : ℕ) : Option String :=
  if id = 0 then some "Sun"
  else if id = 1 then some "Moon"
  else if id = 2 then some "Mercury"
  else if id = 3 then some "Venus"
  else if id = 4 then some "Mars"
  else if id = 5 then some "Jupiter"
  else if id = 6 then some "Saturn"
  else if id = 7 then some "Uranus"
  else if id = 8 then some "Neptune"
  else if id = 9 then some "Pluto"
  else if id = 10 then some "Rahu"
  else none

/-- One body entry of the `planets` object.  The loop writes all six `xx`
components; the derived Ketu body omits `speedLat` and `speedDist`, hence the
`Option` type for those two. -/
structure EphemBody where
  longitude : ℚ
  latitude : ℚ
  distance : ℚ
  speedLon : ℚ
  speedLat : Option ℚ
  speedDist : Option ℚ
  isRetrograde : Bool

/-- The body record built from a `swe_calc_ut` position array
(`longitude: xx[0], ..., isRetrograde: xx[3] < 0`). -/
def bodyOfXX (xx : List ℚ) : EphemBody :=
  { longitude := xx.getD 0 0, latitude := xx.getD 1 0, distance := xx.getD 2 0,
    speedLon := xx.getD 3 0, speedLat := some (xx.getD 4 0), speedDist := some (xx.getD 5 0),
    isRetrograde := decide (xx.getD 3 0 < 0) }

/-- The `houses` section of the returned chart object. -/
structure EphemHouses where
  cusps : List ℚ
  ascendant : ℚ
  mc : ℚ
  armc : ℚ
  vertex : ℚ

/-- The parts of the object returned by `calculateBirthChartData` that the
claims are about (pure echo fields such as `jdut`, `birthDate`, `birthTime`
and `location` elided). -/
structure EphemChart where
  ayanamsa : Option (String × ℚ)
  houseSystem : String
  planets : List (String × EphemBody)
  houses : EphemHouses

/-- The `for (const [name, id] of Object.entries(PLANET_LIST))` loop: each
iteration queries `swe_calc_ut` (logged in the state), throws
`Failed to calculate position for <name>` when the oracle signals an error,
and otherwise appends the body record under `PLANET_NAMES[id]`. -/
def calcPlanets (oracle : Oracle) (flags : ℕ) :
    List (String × ℕ) → OracleState → Except String (List (String × EphemBody)) × OracleState
  | [], s => (.ok [], s)
  | (_, id) :: rest, s =>
    if (oracle.calcUt id flags).ret < 0 ∨ jsTruthyStr (oracle.calcUt id flags).serr = true then
      (.error ("Failed to calculate position for " ++ (PLANET_NAMES id).getD "undefined"),
        { s with queries := s.queries ++ [id] })
    else
      match calcPlanets oracle flags rest { s with queries := s.queries ++ [id] } with
      | (.error e, s2) => (.error e, s2)
      | (.ok ps, s2) =>
        (.ok (((PLANET_NAMES id).getD "undefined", bodyOfXX (oracle.calcUt id flags).xx) :: ps),
          s2)

/-- The body of `calculateBirthChartData` once the sidereal decision is made:
`sid` is the truthiness of `AYANAMSA_MODES[ayanamsaName.toUpperCase()]` and
`modeVal` its numeric value.  When `sid` holds the flags gain
`SEFLG_SIDEREAL` and `swe_set_sid_mode(modeVal, 0, 0)` is issued; the planet
loop and house call follow; the sidereal mode is reset to `0` only on the
success path, exactly as in the source (the two `throw` statements exit
first). -/
def chartCore (oracle : Oracle) (sid : Bool) (modeVal : ℕ) (ayanamsaName : String)
    (houseSystemChar : String) (s : OracleState) : Except String EphemChart × OracleState :=
  let flags := if sid then seflgSpeed ||| seflgSidereal else seflgSpeed
  let s1 := if sid then { s with sidMode := modeVal } else s
  match calcPlanets oracle flags PLANET_LIST s1 with
  | (.error e, s2) => (.error e, s2)
  | (.ok ps, s2) =>
    let planets :=
      match ps.lookup "Rahu" with
      | some rahu =>
        ps ++ [("Ketu",
          { longitude := jsMod360 (rahu.longitude + 180), latitude := -rahu.latitude,
            distance := rahu.distance, speedLon := rahu.speedLon,
            speedLat := none, speedDist := none, isRetrograde := rahu.isRetrograde })]
      | none => ps
    if (oracle.housesEx flags).ret < 0 ∨ jsTruthyStr (oracle.housesEx flags).serr = true then
      (.error "Failed to calculate house cusps.", s2)
    else
      (.ok { ayanamsa := if sid then some (ayanamsaName, oracle.ayanamsa) else none,
             houseSystem := houseSystemChar,
             planets := planets,
             houses := { cusps := ((oracle.housesEx flags).cusps.drop 1).take 12,
                         ascendant := (oracle.housesEx flags).ascmc.getD 0 0,
                         mc := (oracle.housesEx flags).ascmc.getD 1 0,
                         armc := (oracle.housesEx flags).ascmc.getD 2 0,
                         vertex := (oracle.housesEx flags).ascmc.getD 3 0 } },
        if sid then { s2 with sidMode := 0 } else s2)

/-- `calculateBirthChartData` from `ephemeris.js`, as a function of the
oracle, the incoming oracle state, the house system character and the
ayanamsa name. -/
def calculateBirthChartData (oracle : Oracle) (s : OracleState)
    (houseSystemChar : String) (ayanamsaName : String) :
    Except String EphemChart × OracleState :=
  chartCore oracle (jsTruthyNatOpt (AYANAMSA_MODES (jsToUpperCase ayanamsaName)))
    ((AYANAMSA_MODES (jsToUpperCase ayanamsaName)).getD 0) ayanamsaName houseSystemChar s

/-- `List.lookup` over an append scans the left list first. -/
theorem lookup_append_or {β : Type} (a : String) (l1 l2 : List (String × β)) :
    (l1 ++ l2).lookup a = ((l1.lookup a).or (l2.lookup a)) := by
  induction l1 with
  | nil => simp [List.lookup]
  | cons hd t ih =>
    obtain ⟨k, v⟩ := hd
    simp only [List.cons_append, List.lookup]
    rcases hbk : (a == k) with _ | _
    · simpa using ih
    · simp [Option.or]

/-- A key absent from the key column is not found by `List.lookup`. -/
theorem lookup_none_of_not_mem_keys {β : Type} (a : String) (l : List (String × β))
    (h : a ∉ l.map Prod.fst) : l.lookup a = none := by
  induction l with
  | nil => rfl
  | cons hd t ih =>
    obtain ⟨k, v⟩ := hd
    simp only [List.map_cons, List.mem_cons, not_or] at h
    simp only [List.lookup]
    rcases hbk : (a == k) with _ | _
    · exact ih h.2
    · exact absurd (by simpa using hbk) h.1

/-- A successful planet loop returns the bodies keyed by `PLANET_NAMES` in
list order and logs exactly one `swe_calc_ut` query per listed planet. -/
theorem calcPlanets_ok_spec (oracle : Oracle) (flags : ℕ) :
    ∀ (l : List (String × ℕ)) (s s2 : OracleState) (ps : List (String × EphemBody)),
      calcPlanets oracle flags l s = (.ok ps, s2) →
      ps.map Prod.fst = l.map (fun p => (PLANET_NAMES p.2).getD "undefined") ∧
      s2.queries = s.queries ++ l.map Prod.snd := by
  intro l
  induction l with
  | nil =>
    intro s s2 ps h
    simp only [calcPlanets, Prod.mk.injEq] at h
    obtain ⟨h1, h2⟩ := h
    injection h1 with h1
    subst h1
    subst h2
    simp
  | cons hd t ih =>
    obtain ⟨nm, pid⟩ := hd
    intro s s2 ps h
    simp only [calcPlanets] at h
    by_cases hc : (oracle.calcUt pid flags).ret < 0 ∨
        jsTruthyStr (oracle.calcUt pid flags).serr = true
    · rw [if_pos hc] at h
      simp only [Prod.mk.injEq] at h
      exact absurd h.1 (by simp)
    · rw [if_neg hc] at h
      rcases hrec : calcPlanets oracle flags t { s with queries := s.queries ++ [pid] }
        with ⟨res, s3⟩
      rw [hrec] at h
      rcases res with e | ps2
      · simp only [Prod.mk.injEq] at h
        exact absurd h.1 (by simp)
      · simp only [Prod.mk.injEq] at h
        obtain ⟨h1, h2⟩ := h
        injection h1 with h1
        subst h1
        subst h2
        obtain ⟨ih1, ih2⟩ := ih _ _ _ hrec
        constructor
        · simp [ih1]
        · simp [ih2]

/-- Core of claim C4, stated over `chartCore`: on any successful run, the
Ketu entry is derived from the already-computed Rahu entry (antipodal
longitude, negated latitude, copied distance/speed/retrograde flag, no
latitude/distance speeds), and the query log grows by exactly the eleven
listed planet ids — Ketu triggers no oracle query. -/
theorem chartCore_ketu (oracle : Oracle) (b : Bool) (mv : ℕ) (ayName hsys : String)
    (s : OracleState) (chart : EphemChart) (rahu : EphemBody)
    (hok : (chartCore oracle b mv ayName hsys s).1 = .ok chart)
    (hrahu : chart.planets.lookup "Rahu" = some rahu) :
    chart.planets.lookup "Ketu" = some
      { longitude := jsMod360 (rahu.longitude + 180), latitude := -rahu.latitude,
        distance := rahu.distance, speedLon := rahu.speedLon,
        speedLat := none, speedDist := none, isRetrograde := rahu.isRetrograde } ∧
    (chartCore oracle b mv ayName hsys s).2.queries =
      s.queries ++ [0, 1, 2, 3, 4, 5, 6, 7, 8, 9, 10] := by
  simp only [chartCore] at hok ⊢
  rcases hcp : calcPlanets oracle (if b = true then seflgSpeed ||| seflgSidereal else seflgSpeed)
      PLANET_LIST (if b = true then { s with sidMode := mv } else s) with ⟨res, s2⟩
  rw [hcp] at hok
  rcases res with e | ps
  · simp at hok
  · dsimp only at hok ⊢
    by_cases hh : (oracle.housesEx
        (if b = true then seflgSpeed ||| seflgSidereal else seflgSpeed)).ret < 0 ∨
        jsTruthyStr (oracle.housesEx
          (if b = true then seflgSpeed ||| seflgSidereal else seflgSpeed)).serr = true
    · rw [if_pos hh] at hok
      simp at hok
    · rw [if_neg hh] at hok ⊢
      dsimp only at hok ⊢
      injection hok with hchart
      subst hchart
      dsimp only at hrahu ⊢
      obtain ⟨hnames, hqueries⟩ := calcPlanets_ok_spec oracle _ PLANET_LIST _ _ _ hcp
      rcases hlr : ps.lookup "Rahu" with _ | r0
      · rw [hlr] at hrahu
        dsimp only at hrahu
        rw [hlr] at hrahu
        exact Option.noConfusion hrahu
      · rw [hlr] at hrahu
        dsimp only at hrahu ⊢
        rw [lookup_append_or, hlr] at hrahu
        simp only [Option.or] at hrahu
        injection hrahu with hr0
        subst hr0
        constructor
        · have hket : ps.lookup "Ketu" = none := by
            apply lookup_none_of_not_mem_keys
            rw [hnames]
            decide
          rw [lookup_append_or, hket]
          simp [List.lookup]
        · have hq1 : (if b = true then { s with sidMode := mv } else s).queries = s.queries := by
            cases b <;> rfl
          have hq2 : (if b = true then { s2 with sidMode := 0 } else s2).queries =
              s2.queries := by
            cases b <;> rfl
          rw [hq2, hqueries, hq1]
          rfl

/-- Claim C4: in every chart produced by `calculateBirthChartData` in which
Rahu was computed, Ketu has longitude `(Rahu.longitude + 180) % 360`
(JavaScript `%`, equal to the mathematical mod whenever Rahu has a
nonnegative longitude) and the negation of Rahu latitude, copies distance,
longitude speed and the retrograde flag from the fetched Rahu position, and
is derived without a second oracle query: the query log grows by exactly one
`swe_calc_ut` call per listed body, `SE_MEAN_NODE = 10` included once. -/
theorem ketu_antipode_claim (oracle : Oracle) (s : OracleState) (hsys ayName : String)
    (chart : EphemChart) (rahu : EphemBody)
    (hok : (calculateBirthChartData oracle s hsys ayName).1 = .ok chart)
    (hrahu : chart.planets.lookup "Rahu" = some rahu) :
    chart.planets.lookup "Ketu" = some
      { longitude := jsMod360 (rahu.longitude + 180), latitude := -rahu.latitude,
        distance := rahu.distance, speedLon := rahu.speedLon,
        speedLat := none, speedDist := none, isRetrograde := rahu.isRetrograde } ∧
    (0 ≤ rahu.longitude → jsMod360 (rahu.longitude + 180) = norm360 (rahu.longitude + 180)) ∧
    (calculateBirthChartData oracle s hsys ayName).2.queries =
      s.queries ++ [0, 1, 2, 3, 4, 5, 6, 7, 8, 9, 10] := by
  obtain ⟨h1, h2⟩ := chartCore_ketu oracle
    (jsTruthyNatOpt (AYANAMSA_MODES (jsToUpperCase ayName)))
    ((AYANAMSA_MODES (jsToUpperCase ayName)).getD 0) ayName hsys s chart rahu hok hrahu
  exact ⟨h1, fun hge => jsMod360_of_nonneg _ (by linarith), h2⟩

/-- The position array the example oracle returns for every body. -/
def exXX : List ℚ := [10, 1, 2, 1, 0, 0]

/-- The incoming oracle state of the examples: tropical mode, empty log. -/
def exEphState : OracleState := { sidMode := 0, queries := [] }

/-- An oracle on which every ephemeris call succeeds. -/
def exGoodOracle : Oracle :=
  { calcUt := fun _ _ => { ret := 0, xx := exXX, serr := none },
    ayanamsa := 24,
    housesEx := fun _ =>
      { ret := 0, cusps := [0, 0, 30, 60, 90, 120, 150, 180, 210, 240, 270, 300, 330],
        ascmc := [0, 270, 0, 0], serr := none } }

/-- An oracle on which every `swe_calc_ut` call fails (so the planet loop
throws on its first body, the Sun). -/
def exFailOracle : Oracle :=
  { calcUt := fun _ _ => { ret := -1, xx := [], serr := some "ephemeris file missing" },
    ayanamsa := 24,
    housesEx := fun _ => { ret := 0, cusps := [], ascmc := [], serr := none } }

/-- An oracle on which the planets succeed but `swe_houses_ex` fails. -/
def exHousesFailOracle : Oracle :=
  { calcUt := fun _ _ => { ret := 0, xx := exXX, serr := none },
    ayanamsa := 24,
    housesEx := fun _ => { ret := -1, cusps := [], ascmc := [], serr := some "houses error" } }

/-- Witness for C4: on a fully successful LAHIRI run, Rahu is the fetched
body, Ketu is its derived antipode, and the query log is exactly the eleven
planet ids. -/
theorem ketu_antipode_claim_witness :
    ∃ chart,
      (calculateBirthChartData exGoodOracle exEphState "P" "LAHIRI").1 = .ok chart ∧
      chart.planets.lookup "Rahu" = some (bodyOfXX exXX) ∧
      chart.planets.lookup "Ketu" = some
        { longitude := jsMod360 ((bodyOfXX exXX).longitude + 180),
          latitude := -(bodyOfXX exXX).latitude, distance := (bodyOfXX exXX).distance,
          speedLon := (bodyOfXX exXX).speedLon, speedLat := none, speedDist := none,
          isRetrograde := (bodyOfXX exXX).isRetrograde } ∧
      (calculateBirthChartData exGoodOracle exEphState "P" "LAHIRI").2.queries =
        exEphState.queries ++ [0, 1, 2, 3, 4, 5, 6, 7, 8, 9, 10] := by
  refine ⟨_, rfl, rfl, ?_, ?_⟩
  · exact (ketu_antipode_claim exGoodOracle exEphState "P" "LAHIRI" _ (bodyOfXX exXX)
      rfl rfl).1
  · exact (ketu_antipode_claim exGoodOracle exEphState "P" "LAHIRI" _ (bodyOfXX exXX)
      rfl rfl).2.2

/-- Claim C8 (code bug): the sidereal mode is NOT reset on the error exits.
With ayanamsa LAHIRI the mode is set to 1; when the planet loop throws
(`Failed to calculate position for Sun`) or the house call throws, the call
exits with the process-wide mode still 1; only the success exit resets it to
0 — the reset at the end of `calculateBirthChartData` runs after the two
`throw` statements, so spec §5, which demands the reset be guaranteed even on
error, is not met by the code. -/
theorem sid_mode_reset_claim :
    ((calculateBirthChartData exFailOracle exEphState "P" "LAHIRI").1 =
        .error "Failed to calculate position for Sun" ∧
      (calculateBirthChartData exFailOracle exEphState "P" "LAHIRI").2.sidMode = 1) ∧
    ((calculateBirthChartData exHousesFailOracle exEphState "P" "LAHIRI").1 =
        .error "Failed to calculate house cusps." ∧
      (calculateBirthChartData exHousesFailOracle exEphState "P" "LAHIRI").2.sidMode = 1) ∧
    (∃ chart, (calculateBirthChartData exGoodOracle exEphState "P" "LAHIRI").1 = .ok chart) ∧
    (calculateBirthChartData exGoodOracle exEphState "P" "LAHIRI").2.sidMode = 0 := by
  exact ⟨⟨rfl, rfl⟩, ⟨rfl, rfl⟩, ⟨_, rfl⟩, rfl⟩

/-! ## System prompt selection (`claude.js` / astrology actions)

`SYSTEM_PROMPTS` is a four-key object literal of long prompt strings; each
Lean value keeps the opening sentence of the source prompt (the rest of the
prose plays no role in the selection logic the claim is about).
`getAstrologyReport` selects
`SYSTEM_PROMPTS[analysisType] || SYSTEM_PROMPTS.BIRTH_CHART_ANALYSIS`.
A JavaScript bracket lookup on an object literal consults the prototype
chain: a key such as `toString` that is not an own key still finds the
inherited `Object.prototype` member, a truthy function value, so the lookup
is modelled with three outcomes — own prompt string, inherited
`Object.prototype` member, `undefined`. -/

def promptBirthChartAnalysis : String :=
  "You are an expert astrologer, skilled in both Vedic and Western astrological traditions."

def promptPredictionsTransits : String :=
  "You are a predictive astrologer specializing in transit analysis."

def promptCompatibilityAnalysis : String :=
  "You are a relationship astrologer specializing in synastry and composite chart analysis."

def promptRemedialMeasures : String :=
  "You are an experienced Vedic astrologer specializing in astrological remedies (Upayas)."

/-- The value a bracket lookup on the prompt object can produce: an
own-property prompt string, a member inherited from `Object.prototype`
(a function or object — truthy, but not a prompt), or `undefined`. -/
inductive JsLookup where
  | str (s : String)
  | protoMember (name : String)
  | undefined
  deriving DecidableEq

/-- The property names every plain object inherits from `Object.prototype`;
bracket lookup finds them (non-enumerable ones included) whenever they are
not shadowed by an own key. -/
def OBJECT_PROTOTYPE_KEYS : List String :=
  ["constructor", "toString", "toLocaleString", "valueOf", "hasOwnProperty",
   "isPrototypeOf", "propertyIsEnumerable", "__proto__", "__defineGetter__",
   "__defineSetter__", "__lookupGetter__", "__lookupSetter__"]

/-- `SYSTEM_PROMPTS[key]` as JavaScript evaluates it: the four own keys give
their prompt strings, a name inherited from `Object.prototype` gives the
inherited member, and every other key is `undefined`. -/
def SYSTEM_PROMPTS (key : String) : JsLookup :=
  if key = "BIRTH_CHART_ANALYSIS" then .str promptBirthChartAnalysis
  else if key = "PREDICTIONS_TRANSITS" then .str promptPredictionsTransits
  else if key = "COMPATIBILITY_ANALYSIS" then .str promptCompatibilityAnalysis
  else if key = "REMEDIAL_MEASURES" then .str promptRemedialMeasures
  else if key ∈ OBJECT_PROTOTYPE_KEYS then .protoMember key
  else .undefined

/-- JavaScript truthiness of a lookup result: `undefined` and `""` are
falsy; functions, objects and non-empty strings are truthy. -/
def jsTruthyLookup : JsLookup → Bool
  | .str s => decide (s ≠ "")
  | .protoMember _ => true
  | .undefined => false

/-- The prompt-selection line of `getAstrologyReport`:
`SYSTEM_PROMPTS[analysisType] || SYSTEM_PROMPTS.BIRTH_CHART_ANALYSIS`
(JavaScript `||` returns the left operand whenever it is truthy; the
fallback is a dot access on an own key, hence a prompt string). -/
def selectSystemPrompt (analysisType : String) : JsLookup :=
  if jsTruthyLookup (SYSTEM_PROMPTS analysisType) = true then SYSTEM_PROMPTS analysisType
  else SYSTEM_PROMPTS "BIRTH_CHART_ANALYSIS"

/-- Counterexample to C10 as stated: `toString` is not one of the four
enumerated analysis kinds, yet bracket lookup finds the truthy inherited
`Object.prototype.toString`, the `||` fallback does not fire, and the
selected value is that inherited function — not the BIRTH_CHART_ANALYSIS
prompt. -/
theorem prompt_fallback_counterexample :
    "toString" ∉ ["BIRTH_CHART_ANALYSIS", "PREDICTIONS_TRANSITS",
      "COMPATIBILITY_ANALYSIS", "REMEDIAL_MEASURES"] ∧
    SYSTEM_PROMPTS "toString" = .protoMember "toString" ∧
    selectSystemPrompt "toString" = .protoMember "toString" ∧
    selectSystemPrompt "toString" ≠ .str promptBirthChartAnalysis := by decide

/-- Claim C10 (amended): the prompt table owns exactly the four enumerated
keys; an analysis type that is neither an own key nor an `Object.prototype`
property name reads as `undefined` and silently falls back to the
BIRTH_CHART_ANALYSIS prompt, and selection itself never raises; but for a
name inherited from `Object.prototype` the truthy inherited member defeats
the `||` fallback and is selected instead of any prompt. -/
theorem prompt_fallback_claim (analysisType : String)
    (h : analysisType ∉ ["BIRTH_CHART_ANALYSIS", "PREDICTIONS_TRANSITS",
      "COMPATIBILITY_ANALYSIS", "REMEDIAL_MEASURES"])
    (hp : analysisType ∉ OBJECT_PROTOTYPE_KEYS) :
    SYSTEM_PROMPTS analysisType = .undefined ∧
    selectSystemPrompt analysisType = .str promptBirthChartAnalysis ∧
    (∀ t : String, (∃ s, SYSTEM_PROMPTS t = .str s) ↔
      t ∈ ["BIRTH_CHART_ANALYSIS", "PREDICTIONS_TRANSITS",
        "COMPATIBILITY_ANALYSIS", "REMEDIAL_MEASURES"]) ∧
    (∀ t ∈ OBJECT_PROTOTYPE_KEYS, selectSystemPrompt t = .protoMember t) := by
  simp only [List.mem_cons, List.not_mem_nil, or_false, not_or] at h
  obtain ⟨h1, h2, h3, h4⟩ := h
  have hnone : SYSTEM_PROMPTS analysisType = .undefined := by
    simp [SYSTEM_PROMPTS, h1, h2, h3, h4, hp]
  refine ⟨hnone, ?_, ?_, ?_⟩
  · unfold selectSystemPrompt
    rw [hnone]
    rfl
  · intro t
    constructor
    · rintro ⟨str, hs⟩
      by_contra hmem
      simp only [List.mem_cons, List.not_mem_nil, or_false, not_or] at hmem
      obtain ⟨g1, g2, g3, g4⟩ := hmem
      by_cases hpt : t ∈ OBJECT_PROTOTYPE_KEYS <;>
        simp [SYSTEM_PROMPTS, g1, g2, g3, g4, hpt] at hs
    · intro ht
      simp only [List.mem_cons, List.not_mem_nil, or_false] at ht
      rcases ht with hh | hh | hh | hh <;> subst hh <;> exact ⟨_, rfl⟩
  · decide

/-- Witness for C10: the unknown analysis type DASHA_ANALYSIS is neither an
own key of the table nor an `Object.prototype` name, reads as `undefined`,
and selects the BIRTH_CHART_ANALYSIS prompt. -/
theorem prompt_fallback_claim_witness :
    ("DASHA_ANALYSIS" ∉ ["BIRTH_CHART_ANALYSIS", "PREDICTIONS_TRANSITS",
      "COMPATIBILITY_ANALYSIS", "REMEDIAL_MEASURES"] ∧
      "DASHA_ANALYSIS" ∉ OBJECT_PROTOTYPE_KEYS) ∧
    SYSTEM_PROMPTS "DASHA_ANALYSIS" = .undefined ∧
    selectSystemPrompt "DASHA_ANALYSIS" = .str promptBirthChartAnalysis := by
  have h := prompt_fallback_claim "DASHA_ANALYSIS" (by decide) (by decide)
  exact ⟨⟨by decide, by decide⟩, h.1, h.2.1⟩

end AstroInsight
